import Mathlib

/-!
# Triton pintool: instruction interception and callback dispatch

A shallow embedding of `src/core/main.cpp`: the analysis routines the host
instrumentation engine calls (`callbackBefore`, `callbackAfter`, the routine and
syscall handlers, `toggleWrapper`) and the two instrumentation routines
(`TRACE_Instrumentation`, `IMG_Instrumentation`).

The globals `ap`, `analysisTrigger` and `processingPyConf` of `main.cpp` become the
fields of one `World` record that every routine threads through.  Pointers
(`IRBuilder *`, `Inst *`) are indices into two heaps kept in the same record, so that
aliasing (the builder reused by every occurrence of an instruction, the `Inst` that is
both stored as last instruction and written through) is kept.  Every call by which a
routine checks the gate, changes a collaborator or hands control to the script is
appended to `World.calls`, which is how ordering contracts are stated; pure accessors
(`getThreadID`, `getOpcode`, `isBranch`) are not recorded.  `Fini`, `Usage` and `main`
only wire these routines to the host and are left out.
-/

namespace Triton

/-! ## Host types -/

abbrev ADDRINT := Nat
abbrev THREADID := Nat
/-- Raw context handle of the host (`CONTEXT *`). -/
abbrev CONTEXT := Nat
/-- Script callback handle (`PyObject *`). -/
abbrev PyObject := Nat
abbrev SYSCALL_STANDARD := Nat
/-- Address of an `IRBuilder` in the builder heap (`IRBuilder *`). -/
abbrev IRBuilderPtr := Nat
/-- Address of an `Inst` in the record heap (`Inst *`). -/
abbrev InstPtr := Nat

/-- The data members of `class RegisterOperand` (`includes/RegisterOperand.h`). -/
structure RegisterOperand where
  name : String
  pinRegId : Nat
  size : Nat
  tritonRegId : Nat
deriving DecidableEq, Repr

/-- Modelled from the spec: the operand of an instruction record (its header is absent);
one of a register, an immediate or a memory operand, the last carrying its resolved
effective address. -/
inductive Operand where
  | reg (r : RegisterOperand)
  | imm (value : Nat)
  | mem (address : ADDRINT)
deriving DecidableEq, Repr

/-- The host's handle on one decoded instruction (`INS` of pin.H), reduced to what
`main.cpp` and the builder read from it: `INS_MemoryOperandCount`, `INS_IsSyscall`,
`INS_HasFallThrough`, and the decoded opcode, category, operands and branch class. -/
structure INS where
  address : ADDRINT
  opcode : Nat
  category : Nat
  operands : List Operand
  isBranch : Bool
  memoryOperandCount : Nat
  isSyscall : Bool
  hasFallThrough : Bool
deriving DecidableEq, Repr

def INS_MemoryOperandCount (ins : INS) : Nat := ins.memoryOperandCount
def INS_IsSyscall (ins : INS) : Bool := ins.isSyscall
def INS_HasFallThrough (ins : INS) : Bool := ins.hasFallThrough

/-- Instrumentation points of the host (`IPOINT` of pin.H). -/
inductive IPOINT where
  | IPOINT_BEFORE
  | IPOINT_AFTER
  | IPOINT_TAKEN_BRANCH
deriving DecidableEq, Repr

/-! ## Collaborators of `main.cpp` whose sources are absent -/

/-- Modelled from the spec: the Trigger states of §4.1 (`Trigger.h` is absent). -/
inductive TriggerState where
  | LOCKED
  | UNLOCKED
deriving DecidableEq, Repr

/-- Modelled from the spec: the Trigger, a single flag (`Trigger.h` is absent). -/
structure Trigger where
  state : TriggerState
deriving DecidableEq, Repr

/-- Modelled from the spec: `getState()` is true exactly in `UNLOCKED`. -/
def Trigger.getState (t : Trigger) : Bool :=
  match t.state with
  | .UNLOCKED => true
  | .LOCKED => false

/-- Modelled from the spec: `update(true)` gives `UNLOCKED`, `update(false)` gives
`LOCKED`, from either state. -/
def Trigger.update (_t : Trigger) (flag : Bool) : Trigger :=
  if flag then ⟨.UNLOCKED⟩ else ⟨.LOCKED⟩

/-- Modelled from the spec: the execution context of §4.3 (`PINContextHandler.h` is
absent), a raw context handle plus the originating thread identifier. -/
structure PINContextHandler where
  ctx : CONTEXT
  threadId : THREADID
deriving DecidableEq, Repr

/-- Modelled from the spec: the instruction record of §3 (`Inst.h` is absent). -/
structure Inst where
  threadId : THREADID
  address : ADDRINT
  opcode : Nat
  opcodeCategory : Nat
  operands : List Operand
  branch : Bool
deriving DecidableEq, Repr

/-- Modelled from the spec: `isBranch()` reads the branch classification. -/
def Inst.isBranch (i : Inst) : Bool := i.branch

/-- Modelled from the spec: the instruction builder of §4.2 (`IRBuilder.h` is absent).
It keeps what was decoded from the instruction, the memory operands holding the
address last given to `setup`, and the thread identifier last given to `setThreadID`. -/
structure IRBuilder where
  address : ADDRINT
  opcode : Nat
  opcodeCategory : Nat
  operands : List Operand
  branch : Bool
  threadId : THREADID
deriving DecidableEq, Repr

/-- Modelled from the spec: the orchestrator of §4.4 (`AnalysisProcessor.h` is absent):
the current context, the last-instruction slot and the branch counter. -/
structure AnalysisProcessor where
  currentCtxH : Option PINContextHandler
  lastInstruction : Option InstPtr
  numberOfBranchesTaken : Nat
deriving DecidableEq, Repr

/-- One call made by `main.cpp` on a collaborator, with its arguments. -/
inductive Call where
  | applyConfBeforeProcessing (irb : IRBuilderPtr)
  | getState (result : Bool)
  | update (flag : Bool)
  | setup (irb : IRBuilderPtr) (ea : ADDRINT)
  | updateCurrentCtxH (ctxH : PINContextHandler)
  | setThreadID (irb : IRBuilderPtr) (threadId : THREADID)
  | callbackBeforeIRProc (irb : IRBuilderPtr)
  | process (irb : IRBuilderPtr) (inst : InstPtr)
  | addInstructionToTrace (inst : InstPtr)
  | setOpcode (inst : InstPtr) (opcode : Nat)
  | setOpcodeCategory (inst : InstPtr) (category : Nat)
  | setOperands (inst : InstPtr) (operands : List Operand)
  | callbackBefore (inst : InstPtr)
  | getLastInstruction (inst : InstPtr)
  | incNumberOfBranchesTaken (flag : Bool)
  | callbackAfter (inst : InstPtr)
  | callbackRoutine (threadId : THREADID) (callback : PyObject)
  | callbackSyscallEntry (threadId : THREADID) (std : SYSCALL_STANDARD)
  | callbackSyscallExit (threadId : THREADID) (std : SYSCALL_STANDARD)
deriving DecidableEq, Repr

/-- The calls that hand control to the script (the callback sink of §9). -/
def Call.isScriptCallback : Call → Bool
  | .callbackBeforeIRProc _ => true
  | .callbackBefore _ => true
  | .callbackAfter _ => true
  | .callbackRoutine _ _ => true
  | .callbackSyscallEntry _ _ => true
  | .callbackSyscallExit _ _ => true
  | _ => false

/-- The calls that replace the orchestrator's execution context. -/
def Call.isContextRefresh : Call → Bool
  | .updateCurrentCtxH _ => true
  | _ => false

/-- The calls that build an instruction record. -/
def Call.isInstBuild : Call → Bool
  | .process _ _ => true
  | _ => false

/-! ## Registrations kept by the host -/

/-- How the effective-address argument of `callbackBefore` is requested from the host:
`IARG_MEMORYOP_EA, n` or the constant `IARG_ADDRINT, v`. -/
inductive EAArg where
  | IARG_MEMORYOP_EA (memop : Nat)
  | IARG_ADDRINT (value : Nat)
deriving DecidableEq, Repr

/-- The analysis routine named in an `INS_InsertCall`, with its static arguments. -/
inductive InsCall where
  | callbackBefore (irb : IRBuilderPtr) (hasEA : Bool) (ea : EAArg)
  | callbackAfter
deriving DecidableEq, Repr

/-- One `INS_InsertCall(ins, where, ...)`. -/
structure InsRequest where
  ins : INS
  point : IPOINT
  call : InsCall
deriving DecidableEq, Repr

/-- A routine of an image (`RTN` of pin.H). -/
structure RTN where
  name : String
  address : ADDRINT
deriving DecidableEq, Repr

/-- A loaded image (`IMG` of pin.H): its routines. -/
abbrev IMG := List RTN

/-- The analysis routine named in an `RTN_InsertCall`, with its static arguments. -/
inductive RtnCall where
  | toggleWrapper (flag : Bool)
  | callbackRoutineEntry (callback : PyObject)
  | callbackRoutineExit (callback : PyObject)
deriving DecidableEq, Repr

/-- One `RTN_InsertCall(rtn, where, ...)`. -/
structure RtnRequest where
  rtn : RTN
  point : IPOINT
  call : RtnCall
deriving DecidableEq, Repr

/-- The configuration read by `IMG_Instrumentation` (`PyTritonOptions`, declared
outside `main.cpp`): the start symbol and the two symbol-to-callback maps. -/
structure PyTritonOptions where
  startAnalysisFromSymbol : Option String
  callbackRoutineEntry : List (String × PyObject)
  callbackRoutineExit : List (String × PyObject)
deriving DecidableEq, Repr

/-! ## The process state -/

/-- Everything `main.cpp` reads or writes: its three globals (`processingPyConf` is the
recording sink `calls`), the two heaps, and the host's tables of inserted calls. -/
structure World where
  analysisTrigger : Trigger
  ap : AnalysisProcessor
  irbs : List IRBuilder
  insts : List Inst
  calls : List Call
  insRequests : List InsRequest
  rtnRequests : List RtnRequest
deriving DecidableEq, Repr

/-- Conditions under which a routine cannot continue. -/
inductive Err where
  | NoInstructionYet
  | NullContext
  | InvalidPointer
deriving DecidableEq, Repr

/-- Routines run on the process state and either finish or stop on an `Err`. -/
abbrev M := StateT World (Except Err)

/-- The state at start-up: `Trigger()` is `LOCKED`, nothing processed or inserted. -/
def World.initial : World :=
  { analysisTrigger := ⟨.LOCKED⟩
    ap := { currentCtxH := none, lastInstruction := none, numberOfBranchesTaken := 0 }
    irbs := []
    insts := []
    calls := []
    insRequests := []
    rtnRequests := [] }

/-! ## Collaborator operations -/

/-- Appends one call to the record of calls. -/
def record (c : Call) : M Unit :=
  fun w => .ok ((), { w with calls := w.calls ++ [c] })

/-- Stops the routine on an error condition. -/
def fail {α : Type} (e : Err) : M α :=
  fun _ => .error e

/-- Reads the builder an `IRBuilder *` points to. -/
def derefIRBuilder (irb : IRBuilderPtr) : M IRBuilder :=
  fun w =>
    match w.irbs[irb]? with
    | some b => .ok (b, w)
    | none => .error .InvalidPointer

/-- Reads the record an `Inst *` points to. -/
def derefInst (inst : InstPtr) : M Inst :=
  fun w =>
    match w.insts[inst]? with
    | some i => .ok (i, w)
    | none => .error .InvalidPointer

/-- Overwrites the builder an `IRBuilder *` points to. -/
def storeIRBuilder (irb : IRBuilderPtr) (b : IRBuilder) : M Unit :=
  fun w => .ok ((), { w with irbs := w.irbs.set irb b })

/-- Overwrites the record an `Inst *` points to. -/
def storeInst (inst : InstPtr) (i : Inst) : M Unit :=
  fun w => .ok ((), { w with insts := w.insts.set inst i })

namespace analysisTrigger

/-- The gate check `analysisTrigger.getState()`. -/
def getState : M Bool :=
  fun w => .ok (w.analysisTrigger.getState,
    { w with calls := w.calls ++ [.getState w.analysisTrigger.getState] })

/-- The transition `analysisTrigger.update(flag)`. -/
def update (flag : Bool) : M Unit :=
  fun w => .ok ((), { w with
    analysisTrigger := w.analysisTrigger.update flag
    calls := w.calls ++ [.update flag] })

end analysisTrigger

/-- Modelled from the spec: `setup(ea)` resolves the memory operands of the builder to
the effective address `ea` (§4.2). -/
def IRBuilder.setup (b : IRBuilder) (ea : ADDRINT) : IRBuilder :=
  { b with operands := b.operands.map fun o =>
      match o with
      | .mem _ => .mem ea
      | o => o }

/-- Modelled from the spec: `process` returns a new record holding the opcode, the
category and the operand list of the builder, in their order, tagged with the
orchestrator's current thread identifier (§4.2). -/
def IRBuilder.process (b : IRBuilder) (threadId : THREADID) : Inst :=
  { threadId := threadId
    address := b.address
    opcode := b.opcode
    opcodeCategory := b.opcodeCategory
    operands := b.operands
    branch := b.branch }

/-- Modelled from the spec: `createIRBuilder(ins)` decodes the instruction once into a
new builder (`IRBuilderFactory.h` is absent); no address is resolved yet, so memory
operands are as decoded. -/
def IRBuilder.ofINS (ins : INS) : IRBuilder :=
  { address := ins.address
    opcode := ins.opcode
    opcodeCategory := ins.category
    operands := ins.operands
    branch := ins.isBranch
    threadId := 0 }

namespace ap

/-- Modelled from the spec: `updateCurrentCtxH` replaces the held context (§4.4). -/
def updateCurrentCtxH (ctxH : PINContextHandler) : M Unit :=
  fun w => .ok ((), { w with
    ap := { w.ap with currentCtxH := some ctxH }
    calls := w.calls ++ [.updateCurrentCtxH ctxH] })

/-- Modelled from the spec: `getThreadID` is the thread identifier of the held
context (§4.3, §4.4). -/
def getThreadID : M THREADID :=
  fun w =>
    match w.ap.currentCtxH with
    | some c => .ok (c.threadId, w)
    | none => .error .NullContext

/-- Modelled from the spec: `addInstructionToTrace` overwrites the last-instruction
slot (§4.4). -/
def addInstructionToTrace (inst : InstPtr) : M Unit :=
  fun w => .ok ((), { w with
    ap := { w.ap with lastInstruction := some inst }
    calls := w.calls ++ [.addInstructionToTrace inst] })

/-- Modelled from the spec: `getLastInstruction` reads the slot; with nothing processed
yet it is the error condition `NoInstructionYet` (§4.4, §7). -/
def getLastInstruction : M InstPtr :=
  fun w =>
    match w.ap.lastInstruction with
    | some inst => .ok (inst, { w with calls := w.calls ++ [.getLastInstruction inst] })
    | none => .error .NoInstructionYet

/-- Modelled from the spec: `incNumberOfBranchesTaken(flag)` adds one iff `flag` (§4.4).
The spec names no width for the counter, and the natural limit of its representation is
beyond the number of interceptions a process can deliver, so the counter is a natural
number. -/
def incNumberOfBranchesTaken (flag : Bool) : M Unit :=
  fun w => .ok ((), { w with
    ap := { w.ap with numberOfBranchesTaken :=
      if flag then w.ap.numberOfBranchesTaken + 1
      else w.ap.numberOfBranchesTaken }
    calls := w.calls ++ [.incNumberOfBranchesTaken flag] })

end ap

namespace IRBuilderPtr

/-- The call `irb->setup(ea)`. -/
def setup (irb : IRBuilderPtr) (ea : ADDRINT) : M Unit := do
  let b ← derefIRBuilder irb
  storeIRBuilder irb (b.setup ea)
  record (.setup irb ea)

/-- The call `irb->setThreadID(threadId)`. -/
def setThreadID (irb : IRBuilderPtr) (threadId : THREADID) : M Unit := do
  let b ← derefIRBuilder irb
  storeIRBuilder irb { b with threadId := threadId }
  record (.setThreadID irb threadId)

/-- The call `irb->process(ap)`: the new record is allocated at the end of the heap. -/
def process (irb : IRBuilderPtr) : M InstPtr := do
  let b ← derefIRBuilder irb
  let threadId ← ap.getThreadID
  fun w => .ok (w.insts.length, { w with
    insts := w.insts ++ [b.process threadId]
    calls := w.calls ++ [.process irb w.insts.length] })

def getOpcode (irb : IRBuilderPtr) : M Nat := do
  return (← derefIRBuilder irb).opcode

def getOpcodeCategory (irb : IRBuilderPtr) : M Nat := do
  return (← derefIRBuilder irb).opcodeCategory

def getOperands (irb : IRBuilderPtr) : M (List Operand) := do
  return (← derefIRBuilder irb).operands

end IRBuilderPtr

namespace InstPtr

/-- The call `inst->setOpcode(opcode)`. -/
def setOpcode (inst : InstPtr) (opcode : Nat) : M Unit := do
  let i ← derefInst inst
  storeInst inst { i with opcode := opcode }
  record (.setOpcode inst opcode)

/-- The call `inst->setOpcodeCategory(category)`. -/
def setOpcodeCategory (inst : InstPtr) (category : Nat) : M Unit := do
  let i ← derefInst inst
  storeInst inst { i with opcodeCategory := category }
  record (.setOpcodeCategory inst category)

/-- The call `inst->setOperands(operands)`. -/
def setOperands (inst : InstPtr) (operands : List Operand) : M Unit := do
  let i ← derefInst inst
  storeInst inst { i with operands := operands }
  record (.setOperands inst operands)

/-- The call `inst->isBranch()`. -/
def isBranch (inst : InstPtr) : M Bool := do
  return (← derefInst inst).isBranch

end InstPtr

/-- Modelled from the spec: the script boundary `ProcessingPyConf` (its header is
absent) as the recording callback sink of §9: each method records that it was called
and with what, and does nothing else.  In particular the pre-processing configuration
of §4.5 step 1 is recorded and leaves the Trigger and the orchestrator alone. -/
def processingPyConf.applyConfBeforeProcessing (irb : IRBuilderPtr) : M Unit :=
  record (.applyConfBeforeProcessing irb)

/-- The script's before-IR-processing callback, recorded. -/
def processingPyConf.callbackBeforeIRProc (irb : IRBuilderPtr) : M Unit :=
  record (.callbackBeforeIRProc irb)

/-- The script's before-instruction callback, recorded. -/
def processingPyConf.callbackBefore (inst : InstPtr) : M Unit :=
  record (.callbackBefore inst)

/-- The script's after-instruction callback, recorded. -/
def processingPyConf.callbackAfter (inst : InstPtr) : M Unit :=
  record (.callbackAfter inst)

/-- The script's routine callback, recorded. -/
def processingPyConf.callbackRoutine (threadId : THREADID) (callback : PyObject) : M Unit :=
  record (.callbackRoutine threadId callback)

/-- The script's syscall-entry callback, recorded. -/
def processingPyConf.callbackSyscallEntry (threadId : THREADID) (std : SYSCALL_STANDARD) :
    M Unit :=
  record (.callbackSyscallEntry threadId std)

/-- The script's syscall-exit callback, recorded. -/
def processingPyConf.callbackSyscallExit (threadId : THREADID) (std : SYSCALL_STANDARD) :
    M Unit :=
  record (.callbackSyscallExit threadId std)

/-! ## The analysis routines of `main.cpp` -/

def callbackBefore (irb : IRBuilderPtr) (ctx : CONTEXT) (hasEA : Bool) (ea : ADDRINT)
    (threadId : THREADID) : M Unit := do
  /- Some configurations must be applied before processing -/
  processingPyConf.applyConfBeforeProcessing irb
  if !(← analysisTrigger.getState) then
    /- Analysis locked -/
    return
  if hasEA then
    IRBuilderPtr.setup irb ea
  /- Update the current context handler -/
  ap.updateCurrentCtxH ⟨ctx, threadId⟩
  /- Setup Information into Irb -/
  IRBuilderPtr.setThreadID irb (← ap.getThreadID)
  /- Python callback before IR processing -/
  processingPyConf.callbackBeforeIRProc irb
  let inst ← IRBuilderPtr.process irb
  ap.addInstructionToTrace inst
  /- Export some information from Irb to Inst -/
  InstPtr.setOpcode inst (← IRBuilderPtr.getOpcode irb)
  InstPtr.setOpcodeCategory inst (← IRBuilderPtr.getOpcodeCategory irb)
  InstPtr.setOperands inst (← IRBuilderPtr.getOperands irb)
  /- Python callback before instruction processing -/
  processingPyConf.callbackBefore inst

def callbackAfter (ctx : CONTEXT) (threadId : THREADID) : M Unit := do
  if !(← analysisTrigger.getState) then
    /- Analysis locked -/
    return
  /- Update the current context handler -/
  ap.updateCurrentCtxH ⟨ctx, threadId⟩
  /- Get the last instruction -/
  let inst ← ap.getLastInstruction
  /- Update statistics -/
  ap.incNumberOfBranchesTaken (← InstPtr.isBranch inst)
  /- Python callback after instruction processing -/
  processingPyConf.callbackAfter inst

def toggleWrapper (flag : Bool) : M Unit :=
  analysisTrigger.update flag

def callbackRoutineEntry (threadId : THREADID) (callback : PyObject) : M Unit := do
  if !(← analysisTrigger.getState) then
    /- Analysis locked -/
    return
  processingPyConf.callbackRoutine threadId callback

def callbackRoutineExit (threadId : THREADID) (callback : PyObject) : M Unit := do
  if !(← analysisTrigger.getState) then
    /- Analysis locked -/
    return
  processingPyConf.callbackRoutine threadId callback

def callbackSyscallEntry (threadId : THREADID) (ctx : CONTEXT) (std : SYSCALL_STANDARD) :
    M Unit := do
  if !(← analysisTrigger.getState) then
    /- Analysis locked -/
    return
  /- Update the current context handler -/
  ap.updateCurrentCtxH ⟨ctx, threadId⟩
  processingPyConf.callbackSyscallEntry threadId std

def callbackSyscallExit (threadId : THREADID) (ctx : CONTEXT) (std : SYSCALL_STANDARD) :
    M Unit := do
  if !(← analysisTrigger.getState) then
    /- Analysis locked -/
    return
  /- Update the current context handler -/
  ap.updateCurrentCtxH ⟨ctx, threadId⟩
  processingPyConf.callbackSyscallExit threadId std

/-! ## The instrumentation routines of `main.cpp` -/

/-- A basic block of a trace: its instructions, from `BBL_InsHead` on. -/
abbrev BBL := List INS
/-- A trace: its basic blocks, from `TRACE_BblHead` on. -/
abbrev TRACE := List BBL

/-- Modelled from the spec: `createIRBuilder(ins)` allocates one builder for the
instruction at the end of the builder heap (`IRBuilderFactory.h` is absent). -/
def createIRBuilder (ins : INS) : M IRBuilderPtr :=
  fun w => .ok (w.irbs.length, { w with irbs := w.irbs ++ [IRBuilder.ofINS ins] })

/-- The host keeps the inserted calls of an instruction in insertion order. -/
def INS_InsertCall (ins : INS) (point : IPOINT) (call : InsCall) : M Unit :=
  fun w => .ok ((), { w with insRequests := w.insRequests ++ [⟨ins, point, call⟩] })

/-- The trace instrumentation routine; `where` of the source is `point`. -/
def TRACE_Instrumentation (trace : TRACE) : M Unit := do
  for bbl in trace do
    for ins in bbl do
      let irb ← createIRBuilder ins
      /- Callback before -/
      if INS_MemoryOperandCount ins > 0 then
        INS_InsertCall ins .IPOINT_BEFORE (.callbackBefore irb true (.IARG_MEMORYOP_EA 0))
      else
        INS_InsertCall ins .IPOINT_BEFORE (.callbackBefore irb false (.IARG_ADDRINT 0))
      /- Callback after -/
      /- Syscall after context must be catcher with IDREF.CALLBACK.SYSCALL_EXIT -/
      if INS_IsSyscall ins == false then
        let point :=
          if INS_HasFallThrough ins == false then IPOINT.IPOINT_TAKEN_BRANCH
          else IPOINT.IPOINT_AFTER
        INS_InsertCall ins point .callbackAfter

/-- The routine of that name in the image, if any (`RTN_FindByName` and `RTN_Valid`). -/
def RTN_FindByName (img : IMG) (name : String) : Option RTN :=
  img.find? fun rtn => rtn.name == name

/-- The host keeps the inserted calls of a routine in insertion order. -/
def RTN_InsertCall (rtn : RTN) (point : IPOINT) (call : RtnCall) : M Unit :=
  fun w => .ok ((), { w with rtnRequests := w.rtnRequests ++ [⟨rtn, point, call⟩] })

/-- The image instrumentation routine.  `PyTritonOptions` is read as a parameter, its two
maps as lists in iteration order; `RTN_Open` and `RTN_Close` change nothing here. -/
def IMG_Instrumentation (options : PyTritonOptions) (img : IMG) : M Unit := do
  /- Lock / Unlock the Analysis -/
  match options.startAnalysisFromSymbol with
  | some symbol =>
    match RTN_FindByName img symbol with
    | some targetRTN =>
      RTN_InsertCall targetRTN .IPOINT_BEFORE (.toggleWrapper true)
      RTN_InsertCall targetRTN .IPOINT_AFTER (.toggleWrapper false)
    | none => pure ()
  | none => pure ()
  /- Callback on routine entry -/
  for it in options.callbackRoutineEntry do
    match RTN_FindByName img it.1 with
    | some targetRTN =>
      RTN_InsertCall targetRTN .IPOINT_BEFORE (.callbackRoutineEntry it.2)
    | none => pure ()
  /- Callback on routine exit -/
  for it in options.callbackRoutineExit do
    match RTN_FindByName img it.1 with
    | some targetRTN =>
      RTN_InsertCall targetRTN .IPOINT_AFTER (.callbackRoutineExit it.2)
    | none => pure ()

/-! ## Interceptions delivered by the host -/

/-- One call of an analysis routine by the host, with the arguments it passes. -/
inductive Event where
  | callbackBefore (irb : IRBuilderPtr) (ctx : CONTEXT) (hasEA : Bool) (ea : ADDRINT)
      (threadId : THREADID)
  | callbackAfter (ctx : CONTEXT) (threadId : THREADID)
  | toggleWrapper (flag : Bool)
  | callbackRoutineEntry (threadId : THREADID) (callback : PyObject)
  | callbackRoutineExit (threadId : THREADID) (callback : PyObject)
  | callbackSyscallEntry (threadId : THREADID) (ctx : CONTEXT) (std : SYSCALL_STANDARD)
  | callbackSyscallExit (threadId : THREADID) (ctx : CONTEXT) (std : SYSCALL_STANDARD)
deriving DecidableEq, Repr

/-- Runs the analysis routine an interception names. -/
def Event.exec : Event → M Unit
  | .callbackBefore irb ctx hasEA ea threadId => Triton.callbackBefore irb ctx hasEA ea threadId
  | .callbackAfter ctx threadId => Triton.callbackAfter ctx threadId
  | .toggleWrapper flag => Triton.toggleWrapper flag
  | .callbackRoutineEntry threadId callback => Triton.callbackRoutineEntry threadId callback
  | .callbackRoutineExit threadId callback => Triton.callbackRoutineExit threadId callback
  | .callbackSyscallEntry threadId ctx std => Triton.callbackSyscallEntry threadId ctx std
  | .callbackSyscallExit threadId ctx std => Triton.callbackSyscallExit threadId ctx std

/-- Whether the interception toggles the Trigger. -/
def Event.isToggle : Event → Bool
  | .toggleWrapper _ => true
  | _ => false

/-- Runs a sequence of interceptions one after the other; the first error stops it. -/
def runEvents : List Event → M Unit
  | [] => pure ()
  | e :: rest => do
    e.exec
    runEvents rest

/-- The interception a routine request turns into on thread `threadId`
(`IARG_THREAD_ID`). -/
def RtnRequest.event (r : RtnRequest) (threadId : THREADID) : Event :=
  match r.call with
  | .toggleWrapper flag => .toggleWrapper flag
  | .callbackRoutineEntry callback => .callbackRoutineEntry threadId callback
  | .callbackRoutineExit callback => .callbackRoutineExit threadId callback

/-- Modelled from the spec: at a routine's entry (`IPOINT_BEFORE`) or exit
(`IPOINT_AFTER`) the host calls what `RTN_InsertCall` put there, in insertion order,
passing the running thread for `IARG_THREAD_ID` (§6). -/
def rtnEvents (requests : List RtnRequest) (rtn : RTN) (point : IPOINT)
    (threadId : THREADID) : List Event :=
  (requests.filter fun r => r.rtn = rtn ∧ r.point = point).map fun r => r.event threadId

/-- One executed instruction that reaches its after-side point: the arguments the host
passes to its before-interception and then to its after-interception. -/
structure Occurrence where
  irb : IRBuilderPtr
  hasEA : Bool
  ea : ADDRINT
  threadId : THREADID
  ctxBefore : CONTEXT
  ctxAfter : CONTEXT
deriving DecidableEq, Repr

/-- The two interceptions of an executed instruction, in the order they are delivered. -/
def Occurrence.events (o : Occurrence) : List Event :=
  [.callbackBefore o.irb o.ctxBefore o.hasEA o.ea o.threadId,
   .callbackAfter o.ctxAfter o.threadId]


/-! ## Closed forms of what the routines leave behind -/

/-- The builder as `callbackBefore` leaves it: address resolved if `hasEA`, then tagged. -/
def builderAfter (b : IRBuilder) (hasEA : Bool) (ea : ADDRINT) (threadId : THREADID) :
    IRBuilder :=
  { (if hasEA then b.setup ea else b) with threadId := threadId }

/-- The calls `callbackBefore` makes when it passes the gate, in order; `inst` is the
address of the record it builds. -/
def beforeCalls (irb : IRBuilderPtr) (b : IRBuilder) (ctx : CONTEXT) (hasEA : Bool)
    (ea : ADDRINT) (threadId : THREADID) (inst : InstPtr) : List Call :=
  [.applyConfBeforeProcessing irb, .getState true] ++
  (if hasEA then [.setup irb ea] else []) ++
  [.updateCurrentCtxH ⟨ctx, threadId⟩,
   .setThreadID irb threadId,
   .callbackBeforeIRProc irb,
   .process irb inst,
   .addInstructionToTrace inst,
   .setOpcode inst b.opcode,
   .setOpcodeCategory inst b.opcodeCategory,
   .setOperands inst (builderAfter b hasEA ea threadId).operands,
   .callbackBefore inst]

/-- The state `callbackBefore` leaves when it passes the gate on a builder `b`. -/
def beforeResult (w : World) (irb : IRBuilderPtr) (b : IRBuilder) (ctx : CONTEXT)
    (hasEA : Bool) (ea : ADDRINT) (threadId : THREADID) : World :=
  { w with
    ap := { w.ap with
      currentCtxH := some ⟨ctx, threadId⟩
      lastInstruction := some w.insts.length }
    irbs := w.irbs.set irb (builderAfter b hasEA ea threadId)
    insts := w.insts ++ [(builderAfter b hasEA ea threadId).process threadId]
    calls := w.calls ++ beforeCalls irb b ctx hasEA ea threadId w.insts.length }

/-- The calls `callbackAfter` makes when it passes the gate, in order. -/
def afterCalls (ctx : CONTEXT) (threadId : THREADID) (inst : InstPtr) (branch : Bool) :
    List Call :=
  [.getState true,
   .updateCurrentCtxH ⟨ctx, threadId⟩,
   .getLastInstruction inst,
   .incNumberOfBranchesTaken branch,
   .callbackAfter inst]

/-- The state `callbackAfter` leaves when it passes the gate and the last instruction is
the record `i` at address `inst`. -/
def afterResult (w : World) (ctx : CONTEXT) (threadId : THREADID) (inst : InstPtr)
    (i : Inst) : World :=
  { w with
    ap := { w.ap with
      currentCtxH := some ⟨ctx, threadId⟩
      numberOfBranchesTaken :=
        if i.isBranch then w.ap.numberOfBranchesTaken + 1
        else w.ap.numberOfBranchesTaken }
    calls := w.calls ++ afterCalls ctx threadId inst i.isBranch }

/-- The state with some more calls recorded and nothing else changed. -/
def World.recording (w : World) (cs : List Call) : World :=
  { w with calls := w.calls ++ cs }

/-- The interceptions of a list of executed instructions, in order. -/
def Occurrence.trace : List Occurrence → List Event
  | [] => []
  | o :: rest => o.events ++ Occurrence.trace rest

/-- The branch classification held by the builder at `irb`. -/
def isBranchAt (w : World) (irb : IRBuilderPtr) : Bool :=
  match w.irbs[irb]? with
  | some b => b.branch
  | none => false

/-- The script's before-instruction and after-instruction callbacks. -/
def Call.isInstructionCallback : Call → Bool
  | .callbackBefore _ => true
  | .callbackAfter _ => true
  | _ => false

/-- The before/after callback pairs of `n` instructions whose records are built one
after the other from address `inst` on. -/
def callbackPairs (inst : InstPtr) : Nat → List Call
  | 0 => []
  | n + 1 => [.callbackBefore inst, .callbackAfter inst] ++ callbackPairs (inst + 1) n

/-- The Trigger after a sequence of interceptions: only `toggleWrapper` moves it. -/
def triggerAfter : List Event → Trigger → Trigger
  | [], t => t
  | .toggleWrapper flag :: rest, t => triggerAfter rest (t.update flag)
  | _ :: rest, t => triggerAfter rest t

/-- The requests the registrar makes for one instruction, as §4.5 words them: one
before-request carrying whether a memory operand exists and, if so, the request to
resolve memory operand 0; and, unless the instruction is a system call, one after-side
request at the taken-branch point when there is no fall-through and at the ordinary
after-point otherwise. -/
def requestsOf (ins : INS) (irb : IRBuilderPtr) : List InsRequest :=
  [⟨ins, .IPOINT_BEFORE, .callbackBefore irb (decide (0 < ins.memoryOperandCount))
      (if 0 < ins.memoryOperandCount then .IARG_MEMORYOP_EA 0 else .IARG_ADDRINT 0)⟩] ++
  if ins.isSyscall then []
  else [⟨ins, if ins.hasFallThrough then .IPOINT_AFTER else .IPOINT_TAKEN_BRANCH,
      .callbackAfter⟩]

/-- The requests for a list of instructions whose builders are allocated one after the
other from address `irb` on. -/
def requestsFrom (irb : IRBuilderPtr) : List INS → List InsRequest
  | [] => []
  | ins :: rest => requestsOf ins irb ++ requestsFrom (irb + 1) rest

/-- The state after one instruction is instrumented. -/
def instrumentStep (w : World) (ins : INS) : World :=
  { w with
    irbs := w.irbs ++ [IRBuilder.ofINS ins]
    insRequests := w.insRequests ++ requestsOf ins w.irbs.length }

/-- The requests `IMG_Instrumentation` makes for the start symbol. -/
def startRequests (options : PyTritonOptions) (img : IMG) : List RtnRequest :=
  match options.startAnalysisFromSymbol with
  | some symbol =>
    match RTN_FindByName img symbol with
    | some targetRTN =>
      [⟨targetRTN, .IPOINT_BEFORE, .toggleWrapper true⟩,
       ⟨targetRTN, .IPOINT_AFTER, .toggleWrapper false⟩]
    | none => []
  | none => []

/-- The state after one routine-entry hook is looked up in the image. -/
def entryStep (img : IMG) (w : World) (it : String × PyObject) : World :=
  match RTN_FindByName img it.1 with
  | some targetRTN =>
    { w with rtnRequests :=
        w.rtnRequests ++ [⟨targetRTN, .IPOINT_BEFORE, .callbackRoutineEntry it.2⟩] }
  | none => w

/-- The state after one routine-exit hook is looked up in the image. -/
def exitStep (img : IMG) (w : World) (it : String × PyObject) : World :=
  match RTN_FindByName img it.1 with
  | some targetRTN =>
    { w with rtnRequests :=
        w.rtnRequests ++ [⟨targetRTN, .IPOINT_AFTER, .callbackRoutineExit it.2⟩] }
  | none => w

/-- Whether a routine request calls `toggleWrapper`. -/
def RtnRequest.isToggle (r : RtnRequest) : Bool :=
  match r.call with
  | .toggleWrapper _ => true
  | _ => false

/-- A call that is neither a script callback, nor a context refresh, nor a build. -/
def Call.isQuiet (c : Call) : Bool :=
  !c.isScriptCallback && !c.isContextRefresh && !c.isInstBuild

/-- The state the two interceptions of an executed instruction leave when the Trigger is
unlocked and its builder is `b`. -/
def pairResult (w : World) (o : Occurrence) (b : IRBuilder) : World :=
  afterResult (beforeResult w o.irb b o.ctxBefore o.hasEA o.ea o.threadId)
    o.ctxAfter o.threadId w.insts.length
    ((builderAfter b o.hasEA o.ea o.threadId).process o.threadId)

/-- The instructions of a trace in the order the two loops visit them. -/
def TRACE.instructions : TRACE → List INS
  | [] => []
  | bbl :: rest => bbl ++ TRACE.instructions rest

/-- The requests for the routine-entry hooks whose symbol resolves in the image. -/
def entryRequests (img : IMG) : List (String × PyObject) → List RtnRequest
  | [] => []
  | it :: rest =>
    (match RTN_FindByName img it.1 with
     | some targetRTN => [⟨targetRTN, .IPOINT_BEFORE, .callbackRoutineEntry it.2⟩]
     | none => []) ++ entryRequests img rest

/-- The requests for the routine-exit hooks whose symbol resolves in the image. -/
def exitRequests (img : IMG) : List (String × PyObject) → List RtnRequest
  | [] => []
  | it :: rest =>
    (match RTN_FindByName img it.1 with
     | some targetRTN => [⟨targetRTN, .IPOINT_AFTER, .callbackRoutineExit it.2⟩]
     | none => []) ++ exitRequests img rest

/-- The record a call stores in the last-instruction slot, if it stores one. -/
def Call.stored : Call → Option InstPtr
  | .addInstructionToTrace inst => some inst
  | _ => none

/-- The record most recently given to `addInstructionToTrace` in a sequence of calls. -/
def lastStored : List Call → Option InstPtr
  | [] => none
  | c :: rest => (lastStored rest).or c.stored

/-- The last-instruction slot holds what the recorded calls stored in it last. -/
def World.slotAgrees (w : World) : Prop :=
  w.ap.lastInstruction = lastStored w.calls

/-- The last-instruction slot, when filled, points into the record heap. -/
def World.slotValid (w : World) : Prop :=
  match w.ap.lastInstruction with
  | some inst => inst < w.insts.length
  | none => True

/-- No before-interception of the sequence meets the Trigger unlocked, starting from the
Trigger `t`: none of them passes the gate, so none stores an instruction. -/
def storesNothing (t : Trigger) : List Event → Bool
  | [] => true
  | .toggleWrapper flag :: rest => storesNothing (t.update flag) rest
  | .callbackBefore _ _ _ _ _ :: rest => !t.getState && storesNothing t rest
  | _ :: rest => storesNothing t rest

/-! ## A small program used to instantiate the statements -/

/-- A load: one memory operand, falls through. -/
def sampleLoad : INS :=
  { address := 4096, opcode := 1, category := 1, operands := [.imm 8, .mem 0],
    isBranch := false, memoryOperandCount := 1, isSyscall := false, hasFallThrough := true }

/-- A conditional branch: no memory operand, falls through when not taken. -/
def sampleJcc : INS :=
  { address := 4100, opcode := 2, category := 2, operands := [.imm 4200],
    isBranch := true, memoryOperandCount := 0, isSyscall := false, hasFallThrough := true }

/-- An unconditional jump: no fall-through. -/
def sampleJmp : INS :=
  { address := 4104, opcode := 3, category := 3, operands := [.imm 4300],
    isBranch := true, memoryOperandCount := 0, isSyscall := false, hasFallThrough := false }

/-- A system-call instruction. -/
def sampleSyscall : INS :=
  { address := 4108, opcode := 4, category := 4, operands := [],
    isBranch := false, memoryOperandCount := 0, isSyscall := true, hasFallThrough := true }

/-- An arithmetic instruction on immediates at the given address. -/
def sampleAdd (address : ADDRINT) : INS :=
  { address := address, opcode := 5, category := 5, operands := [.imm 1, .imm 2],
    isBranch := false, memoryOperandCount := 0, isSyscall := false, hasFallThrough := true }

/-- A trace of two basic blocks. -/
def sampleTrace : TRACE := [[sampleLoad, sampleJcc], [sampleJmp, sampleSyscall]]

/-- The start-up state once `sampleTrace` is instrumented; the Trigger is `LOCKED`. -/
def sampleWorld : World :=
  { World.initial with
    irbs := (TRACE.instructions sampleTrace).map IRBuilder.ofINS
    insRequests := requestsFrom 0 (TRACE.instructions sampleTrace) }

/-- The same state once `toggleWrapper(true)` has unlocked the Trigger. -/
def sampleUnlocked : World :=
  { sampleWorld with analysisTrigger := ⟨.UNLOCKED⟩, calls := [.update true] }

/-- An image holding `_start` and `main`. -/
def sampleImage : IMG := [⟨"_start", 8192⟩, ⟨"main", 8448⟩]

/-- The routine `main` of `sampleImage`. -/
def sampleMain : RTN := ⟨"main", 8448⟩

/-- The configuration of the start-symbol scenario: analysis starts at `main`, no routine
hooks. -/
def sampleOptions : PyTritonOptions :=
  { startAnalysisFromSymbol := some "main", callbackRoutineEntry := [],
    callbackRoutineExit := [] }

/-- Two instructions run before `main`, then the five instructions of `main`, the third
of which is the conditional branch. -/
def scenarioTrace : TRACE :=
  [[sampleAdd 8192, sampleAdd 8196],
   [sampleAdd 8448, sampleLoad, sampleJcc, sampleAdd 8460, sampleAdd 8464]]

/-- The start-up state once `scenarioTrace` is instrumented. -/
def scenarioWorld : World :=
  { World.initial with
    irbs := (TRACE.instructions scenarioTrace).map IRBuilder.ofINS
    insRequests := requestsFrom 0 (TRACE.instructions scenarioTrace) }

/-- The occurrence of the instruction whose builder is `irb`, on thread 0. -/
def scenarioOccurrence (irb : IRBuilderPtr) (hasEA : Bool) : Occurrence :=
  { irb := irb, hasEA := hasEA, ea := 24576, threadId := 0, ctxBefore := 2 * irb,
    ctxAfter := 2 * irb + 1 }

/-- The interceptions of the two instructions run before `main`. -/
def scenarioBefore : List Event :=
  Occurrence.trace [scenarioOccurrence 0 false, scenarioOccurrence 1 false]

/-- The five instructions run inside `main`. -/
def scenarioBody : List Occurrence :=
  [scenarioOccurrence 2 false, scenarioOccurrence 3 true, scenarioOccurrence 4 false,
   scenarioOccurrence 5 false, scenarioOccurrence 6 false]

/-- The state after thread 1 has entered a system call in `sampleUnlocked` with raw
context 100: the orchestrator holds the context of thread 1. -/
def sampleSyscalled : World :=
  { sampleUnlocked with
    ap := { sampleUnlocked.ap with currentCtxH := some ⟨100, 1⟩ }
    calls := sampleUnlocked.calls ++
      [.getState true, .updateCurrentCtxH ⟨100, 1⟩, .callbackSyscallEntry 1 0] }

/-- The state after the before-interception of `sampleLoad` on thread 1 in
`sampleUnlocked`. -/
def sampleStored : World :=
  beforeResult sampleUnlocked 0 (IRBuilder.ofINS sampleLoad) 7 true 24576 1

/-- What `setup(ea)` does to one operand: a memory operand takes the address, the others
are kept. -/
def Operand.resolve (ea : ADDRINT) : Operand → Operand
  | .mem _ => .mem ea
  | o => o

/-- The state reached from `sampleWorld` when the before-interception of `sampleLoad`
runs while the Trigger is still `LOCKED` and the Trigger is unlocked right after. -/
def sampleLateUnlocked : World :=
  { sampleWorld with
    analysisTrigger := ⟨.UNLOCKED⟩
    calls := [.applyConfBeforeProcessing 0, .getState false, .update true] }

/-- The state reached from `sampleStored` when the Trigger is locked, the
before-interception of `sampleJcc` runs locked, and the Trigger is unlocked again: the
slot still holds the record of `sampleLoad`. -/
def sampleInterleaved : World :=
  { sampleStored with
    calls := sampleStored.calls ++
      [.update false, .applyConfBeforeProcessing 1, .getState false, .update true] }

/-! ## Heap lemmas -/

theorem getElem?_set_of_some {α : Type} (l : List α) (i : Nat) (a b : α)
    (h : l[i]? = some a) : (l.set i b)[i]? = some b := by
  have hlt : i < l.length := by
    by_contra hc
    simp [List.getElem?_eq_none (Nat.le_of_not_lt hc)] at h
  simp [List.getElem?_set, hlt]

theorem getState_of_unlocked (t : Trigger) (h : t.state = .UNLOCKED) : t.getState = true := by
  simp [Trigger.getState, h]

theorem getState_of_locked (t : Trigger) (h : t.state = .LOCKED) : t.getState = false := by
  simp [Trigger.getState, h]

/-! ## What each analysis routine returns -/

theorem callbackBefore_locked (w : World) (irb : IRBuilderPtr) (ctx : CONTEXT) (hasEA : Bool)
    (ea : ADDRINT) (threadId : THREADID) (h : w.analysisTrigger.getState = false) :
    (callbackBefore irb ctx hasEA ea threadId).run w =
      .ok ((), w.recording [.applyConfBeforeProcessing irb, .getState false]) := by
  simp [callbackBefore, StateT.run, bind, StateT.bind, Except.bind,
    processingPyConf.applyConfBeforeProcessing, record, analysisTrigger.getState, h, pure,
    StateT.pure, Except.pure, World.recording]

theorem callbackBefore_unlocked (w : World) (irb : IRBuilderPtr) (b : IRBuilder)
    (ctx : CONTEXT) (hasEA : Bool) (ea : ADDRINT) (threadId : THREADID)
    (h : w.analysisTrigger.getState = true) (hb : w.irbs[irb]? = some b) :
    (callbackBefore irb ctx hasEA ea threadId).run w =
      .ok ((), beforeResult w irb b ctx hasEA ea threadId) := by
  cases hasEA <;>
  simp [callbackBefore, StateT.run, bind, StateT.bind, Except.bind,
    processingPyConf.applyConfBeforeProcessing, record, analysisTrigger.getState, h, pure,
    StateT.pure, Except.pure, ap.updateCurrentCtxH, IRBuilderPtr.setup, derefIRBuilder, hb,
    storeIRBuilder, ap.getThreadID, IRBuilderPtr.setThreadID,
    processingPyConf.callbackBeforeIRProc, IRBuilderPtr.process, ap.addInstructionToTrace,
    IRBuilderPtr.getOpcode, IRBuilderPtr.getOpcodeCategory, IRBuilderPtr.getOperands,
    InstPtr.setOpcode, InstPtr.setOpcodeCategory, InstPtr.setOperands, derefInst, storeInst,
    processingPyConf.callbackBefore, getElem?_set_of_some _ _ _ _ hb, beforeResult,
    beforeCalls, builderAfter, IRBuilder.process, IRBuilder.setup]

theorem callbackAfter_locked (w : World) (ctx : CONTEXT) (threadId : THREADID)
    (h : w.analysisTrigger.getState = false) :
    (callbackAfter ctx threadId).run w = .ok ((), w.recording [.getState false]) := by
  simp [callbackAfter, StateT.run, bind, StateT.bind, Except.bind, analysisTrigger.getState,
    h, pure, StateT.pure, Except.pure, World.recording]

theorem callbackAfter_unlocked (w : World) (ctx : CONTEXT) (threadId : THREADID)
    (inst : InstPtr) (i : Inst) (h : w.analysisTrigger.getState = true)
    (hl : w.ap.lastInstruction = some inst) (hi : w.insts[inst]? = some i) :
    (callbackAfter ctx threadId).run w = .ok ((), afterResult w ctx threadId inst i) := by
  simp [callbackAfter, StateT.run, bind, StateT.bind, Except.bind, analysisTrigger.getState,
    h, pure, StateT.pure, Except.pure, ap.updateCurrentCtxH, ap.getLastInstruction, hl,
    InstPtr.isBranch, derefInst, hi, ap.incNumberOfBranchesTaken,
    processingPyConf.callbackAfter, record, afterResult, afterCalls]

theorem callbackAfter_noInstruction (w : World) (ctx : CONTEXT) (threadId : THREADID)
    (h : w.analysisTrigger.getState = true) (hl : w.ap.lastInstruction = none) :
    (callbackAfter ctx threadId).run w = .error .NoInstructionYet := by
  simp [callbackAfter, StateT.run, bind, StateT.bind, pure, StateT.pure, Except.pure, Except.bind, analysisTrigger.getState,
    h, ap.updateCurrentCtxH, ap.getLastInstruction, hl]

theorem toggleWrapper_run (w : World) (flag : Bool) :
    (toggleWrapper flag).run w = .ok ((), { w with
      analysisTrigger := w.analysisTrigger.update flag
      calls := w.calls ++ [.update flag] }) := by
  simp [toggleWrapper, analysisTrigger.update, StateT.run]

theorem callbackRoutineEntry_locked (w : World) (threadId : THREADID) (callback : PyObject)
    (h : w.analysisTrigger.getState = false) :
    (callbackRoutineEntry threadId callback).run w = .ok ((), w.recording [.getState false]) := by
  simp [callbackRoutineEntry, StateT.run, bind, StateT.bind, Except.bind,
    analysisTrigger.getState, h, pure, StateT.pure, Except.pure, World.recording]

theorem callbackRoutineEntry_unlocked (w : World) (threadId : THREADID) (callback : PyObject)
    (h : w.analysisTrigger.getState = true) :
    (callbackRoutineEntry threadId callback).run w =
      .ok ((), w.recording [.getState true, .callbackRoutine threadId callback]) := by
  simp [callbackRoutineEntry, StateT.run, bind, StateT.bind, pure, StateT.pure, Except.pure, Except.bind,
    analysisTrigger.getState, h, processingPyConf.callbackRoutine, record, World.recording]

theorem callbackRoutineExit_locked (w : World) (threadId : THREADID) (callback : PyObject)
    (h : w.analysisTrigger.getState = false) :
    (callbackRoutineExit threadId callback).run w = .ok ((), w.recording [.getState false]) := by
  simp [callbackRoutineExit, StateT.run, bind, StateT.bind, Except.bind,
    analysisTrigger.getState, h, pure, StateT.pure, Except.pure, World.recording]

theorem callbackRoutineExit_unlocked (w : World) (threadId : THREADID) (callback : PyObject)
    (h : w.analysisTrigger.getState = true) :
    (callbackRoutineExit threadId callback).run w =
      .ok ((), w.recording [.getState true, .callbackRoutine threadId callback]) := by
  simp [callbackRoutineExit, StateT.run, bind, StateT.bind, pure, StateT.pure, Except.pure, Except.bind,
    analysisTrigger.getState, h, processingPyConf.callbackRoutine, record, World.recording]

theorem callbackSyscallEntry_locked (w : World) (threadId : THREADID) (ctx : CONTEXT)
    (std : SYSCALL_STANDARD) (h : w.analysisTrigger.getState = false) :
    (callbackSyscallEntry threadId ctx std).run w = .ok ((), w.recording [.getState false]) := by
  simp [callbackSyscallEntry, StateT.run, bind, StateT.bind, Except.bind,
    analysisTrigger.getState, h, pure, StateT.pure, Except.pure, World.recording]

theorem callbackSyscallEntry_unlocked (w : World) (threadId : THREADID) (ctx : CONTEXT)
    (std : SYSCALL_STANDARD) (h : w.analysisTrigger.getState = true) :
    (callbackSyscallEntry threadId ctx std).run w =
      .ok ((), { w with
        ap := { w.ap with currentCtxH := some ⟨ctx, threadId⟩ }
        calls := w.calls ++ [.getState true, .updateCurrentCtxH ⟨ctx, threadId⟩,
          .callbackSyscallEntry threadId std] }) := by
  simp [callbackSyscallEntry, StateT.run, bind, StateT.bind, pure, StateT.pure, Except.pure, Except.bind,
    analysisTrigger.getState, h, ap.updateCurrentCtxH, processingPyConf.callbackSyscallEntry,
    record]

theorem callbackSyscallExit_locked (w : World) (threadId : THREADID) (ctx : CONTEXT)
    (std : SYSCALL_STANDARD) (h : w.analysisTrigger.getState = false) :
    (callbackSyscallExit threadId ctx std).run w = .ok ((), w.recording [.getState false]) := by
  simp [callbackSyscallExit, StateT.run, bind, StateT.bind, Except.bind,
    analysisTrigger.getState, h, pure, StateT.pure, Except.pure, World.recording]

theorem callbackSyscallExit_unlocked (w : World) (threadId : THREADID) (ctx : CONTEXT)
    (std : SYSCALL_STANDARD) (h : w.analysisTrigger.getState = true) :
    (callbackSyscallExit threadId ctx std).run w =
      .ok ((), { w with
        ap := { w.ap with currentCtxH := some ⟨ctx, threadId⟩ }
        calls := w.calls ++ [.getState true, .updateCurrentCtxH ⟨ctx, threadId⟩,
          .callbackSyscallExit threadId std] }) := by
  simp [callbackSyscallExit, StateT.run, bind, StateT.bind, pure, StateT.pure, Except.pure, Except.bind,
    analysisTrigger.getState, h, ap.updateCurrentCtxH, processingPyConf.callbackSyscallExit,
    record]

theorem callbackBefore_invalid (w : World) (irb : IRBuilderPtr) (ctx : CONTEXT) (hasEA : Bool)
    (ea : ADDRINT) (threadId : THREADID) (h : w.analysisTrigger.getState = true)
    (hb : w.irbs[irb]? = none) :
    (callbackBefore irb ctx hasEA ea threadId).run w = .error .InvalidPointer := by
  cases hasEA <;>
  simp [callbackBefore, StateT.run, bind, StateT.bind, pure, StateT.pure, Except.pure,
    Except.bind, processingPyConf.applyConfBeforeProcessing, record, analysisTrigger.getState,
    h, ap.updateCurrentCtxH, IRBuilderPtr.setup, derefIRBuilder, hb, ap.getThreadID,
    IRBuilderPtr.setThreadID]

theorem callbackAfter_invalid (w : World) (ctx : CONTEXT) (threadId : THREADID)
    (inst : InstPtr) (h : w.analysisTrigger.getState = true)
    (hl : w.ap.lastInstruction = some inst) (hi : w.insts[inst]? = none) :
    (callbackAfter ctx threadId).run w = .error .InvalidPointer := by
  simp [callbackAfter, StateT.run, bind, StateT.bind, pure, StateT.pure, Except.pure,
    Except.bind, analysisTrigger.getState, h, ap.updateCurrentCtxH, ap.getLastInstruction, hl,
    InstPtr.isBranch, derefInst, hi]

/-! ## Runs of interceptions -/

theorem runEvents_nil (w : World) : (runEvents []).run w = .ok ((), w) := rfl

theorem runEvents_cons_ok (e : Event) (rest : List Event) (w w1 : World)
    (h : e.exec.run w = .ok ((), w1)) :
    (runEvents (e :: rest)).run w = (runEvents rest).run w1 := by
  simp only [StateT.run] at h ⊢
  simp only [runEvents, bind, StateT.bind, h, Except.bind]

theorem runEvents_cons_error (e : Event) (rest : List Event) (w : World) (err : Err)
    (h : e.exec.run w = .error err) :
    (runEvents (e :: rest)).run w = .error err := by
  simp only [StateT.run] at h ⊢
  simp only [runEvents, bind, StateT.bind, h, Except.bind]

theorem runEvents_append_ok (a b : List Event) (w w1 : World)
    (h : (runEvents a).run w = .ok ((), w1)) :
    (runEvents (a ++ b)).run w = (runEvents b).run w1 := by
  induction a generalizing w with
  | nil =>
    rw [runEvents_nil] at h
    cases h
    rfl
  | cons e rest ih =>
    cases he : e.exec.run w with
    | error err =>
      rw [runEvents_cons_error e rest w err he] at h
      cases h
    | ok r =>
      obtain ⟨u, w2⟩ := r
      rw [runEvents_cons_ok e rest w w2 he] at h
      rw [List.cons_append, runEvents_cons_ok e (rest ++ b) w w2 he]
      exact ih w2 h

theorem exec_locked (e : Event) (w : World) (he : e.isToggle = false)
    (h : w.analysisTrigger.getState = false) :
    ∃ cs, e.exec.run w = .ok ((), w.recording cs) ∧ ∀ c ∈ cs, c.isQuiet = true := by
  cases e with
  | callbackBefore irb ctx hasEA ea threadId =>
    exact ⟨_, callbackBefore_locked w irb ctx hasEA ea threadId h, by simp [Call.isQuiet,
      Call.isScriptCallback, Call.isContextRefresh, Call.isInstBuild]⟩
  | callbackAfter ctx threadId =>
    exact ⟨_, callbackAfter_locked w ctx threadId h, by simp [Call.isQuiet,
      Call.isScriptCallback, Call.isContextRefresh, Call.isInstBuild]⟩
  | toggleWrapper flag => simp [Event.isToggle] at he
  | callbackRoutineEntry threadId callback =>
    exact ⟨_, callbackRoutineEntry_locked w threadId callback h, by simp [Call.isQuiet,
      Call.isScriptCallback, Call.isContextRefresh, Call.isInstBuild]⟩
  | callbackRoutineExit threadId callback =>
    exact ⟨_, callbackRoutineExit_locked w threadId callback h, by simp [Call.isQuiet,
      Call.isScriptCallback, Call.isContextRefresh, Call.isInstBuild]⟩
  | callbackSyscallEntry threadId ctx std =>
    exact ⟨_, callbackSyscallEntry_locked w threadId ctx std h, by simp [Call.isQuiet,
      Call.isScriptCallback, Call.isContextRefresh, Call.isInstBuild]⟩
  | callbackSyscallExit threadId ctx std =>
    exact ⟨_, callbackSyscallExit_locked w threadId ctx std h, by simp [Call.isQuiet,
      Call.isScriptCallback, Call.isContextRefresh, Call.isInstBuild]⟩

theorem recording_recording (w : World) (a b : List Call) :
    (w.recording a).recording b = w.recording (a ++ b) := by
  simp [World.recording]

theorem recording_nil (w : World) : w.recording [] = w := by
  simp [World.recording]

theorem runEvents_locked (evs : List Event) (w : World)
    (hevs : ∀ e ∈ evs, e.isToggle = false) (h : w.analysisTrigger.getState = false) :
    ∃ cs, (runEvents evs).run w = .ok ((), w.recording cs) ∧ ∀ c ∈ cs, c.isQuiet = true := by
  induction evs generalizing w with
  | nil => exact ⟨[], by rw [runEvents_nil, recording_nil], by simp⟩
  | cons e rest ih =>
    obtain ⟨cs, hrun, hq⟩ := exec_locked e w (hevs e (List.mem_cons_self _ _)) h
    obtain ⟨cs2, hrun2, hq2⟩ := ih (w.recording cs)
      (fun e he => hevs e (List.mem_cons_of_mem _ he)) h
    refine ⟨cs ++ cs2, ?_, ?_⟩
    · rw [runEvents_cons_ok e rest w _ hrun, hrun2, recording_recording]
    · intro c hc
      rcases List.mem_append.mp hc with hc | hc
      · exact hq c hc
      · exact hq2 c hc

theorem exec_trigger (e : Event) (w w1 : World) (h : e.exec.run w = .ok ((), w1)) :
    w1.analysisTrigger = triggerAfter [e] w.analysisTrigger := by
  cases hs : w.analysisTrigger.getState with
  | false =>
    cases e with
    | toggleWrapper flag =>
      simp only [Event.exec, toggleWrapper_run] at h
      cases h
      rfl
    | callbackBefore irb ctx hasEA ea threadId =>
      simp only [Event.exec, callbackBefore_locked w irb ctx hasEA ea threadId hs] at h
      cases h; rfl
    | callbackAfter ctx threadId =>
      simp only [Event.exec, callbackAfter_locked w ctx threadId hs] at h
      cases h; rfl
    | callbackRoutineEntry threadId callback =>
      simp only [Event.exec, callbackRoutineEntry_locked w threadId callback hs] at h
      cases h; rfl
    | callbackRoutineExit threadId callback =>
      simp only [Event.exec, callbackRoutineExit_locked w threadId callback hs] at h
      cases h; rfl
    | callbackSyscallEntry threadId ctx std =>
      simp only [Event.exec, callbackSyscallEntry_locked w threadId ctx std hs] at h
      cases h; rfl
    | callbackSyscallExit threadId ctx std =>
      simp only [Event.exec, callbackSyscallExit_locked w threadId ctx std hs] at h
      cases h; rfl
  | true =>
    cases e with
    | toggleWrapper flag =>
      simp only [Event.exec, toggleWrapper_run] at h
      cases h
      rfl
    | callbackBefore irb ctx hasEA ea threadId =>
      cases hb : w.irbs[irb]? with
      | none =>
        simp only [Event.exec, callbackBefore_invalid w irb ctx hasEA ea threadId hs hb] at h
        cases h
      | some b =>
        simp only [Event.exec, callbackBefore_unlocked w irb b ctx hasEA ea threadId hs hb] at h
        cases h; rfl
    | callbackAfter ctx threadId =>
      cases hl : w.ap.lastInstruction with
      | none =>
        simp only [Event.exec, callbackAfter_noInstruction w ctx threadId hs hl] at h
        cases h
      | some inst =>
        cases hi : w.insts[inst]? with
        | none =>
          simp only [Event.exec, callbackAfter_invalid w ctx threadId inst hs hl hi] at h
          cases h
        | some i =>
          simp only [Event.exec, callbackAfter_unlocked w ctx threadId inst i hs hl hi] at h
          cases h; rfl
    | callbackRoutineEntry threadId callback =>
      simp only [Event.exec, callbackRoutineEntry_unlocked w threadId callback hs] at h
      cases h; rfl
    | callbackRoutineExit threadId callback =>
      simp only [Event.exec, callbackRoutineExit_unlocked w threadId callback hs] at h
      cases h; rfl
    | callbackSyscallEntry threadId ctx std =>
      simp only [Event.exec, callbackSyscallEntry_unlocked w threadId ctx std hs] at h
      cases h; rfl
    | callbackSyscallExit threadId ctx std =>
      simp only [Event.exec, callbackSyscallExit_unlocked w threadId ctx std hs] at h
      cases h; rfl

theorem triggerAfter_cons (e : Event) (rest : List Event) (t : Trigger) :
    triggerAfter (e :: rest) t = triggerAfter rest (triggerAfter [e] t) := by
  cases e <;> rfl

theorem triggerAfter_append (a b : List Event) (t : Trigger) :
    triggerAfter (a ++ b) t = triggerAfter b (triggerAfter a t) := by
  induction a generalizing t with
  | nil => rfl
  | cons e rest ih =>
    rw [List.cons_append, triggerAfter_cons, ih, triggerAfter_cons e rest]

theorem triggerAfter_noToggle (evs : List Event) (t : Trigger)
    (h : ∀ e ∈ evs, e.isToggle = false) : triggerAfter evs t = t := by
  induction evs generalizing t with
  | nil => rfl
  | cons e rest ih =>
    have he := h e (List.mem_cons_self _ _)
    have hrest := ih t (fun e he => h e (List.mem_cons_of_mem _ he))
    cases e <;> first | exact hrest | simp [Event.isToggle] at he

theorem runEvents_trigger (evs : List Event) (w w1 : World)
    (h : (runEvents evs).run w = .ok ((), w1)) :
    w1.analysisTrigger = triggerAfter evs w.analysisTrigger := by
  induction evs generalizing w with
  | nil =>
    rw [runEvents_nil] at h
    cases h
    rfl
  | cons e rest ih =>
    cases he : e.exec.run w with
    | error err =>
      rw [runEvents_cons_error e rest w err he] at h
      cases h
    | ok r =>
      obtain ⟨u, w2⟩ := r
      rw [runEvents_cons_ok e rest w w2 he] at h
      rw [triggerAfter_cons, ← exec_trigger e w w2 he]
      exact ih w2 h

/-! ## An executed instruction while unlocked -/

theorem pair_unlocked (w : World) (o : Occurrence) (b : IRBuilder)
    (h : w.analysisTrigger.getState = true) (hb : w.irbs[o.irb]? = some b) :
    (runEvents o.events).run w = .ok ((), pairResult w o b) := by
  have h1 : (Event.callbackBefore o.irb o.ctxBefore o.hasEA o.ea o.threadId).exec.run w = _ :=
    callbackBefore_unlocked w o.irb b o.ctxBefore o.hasEA o.ea o.threadId h hb
  have h2 : (Event.callbackAfter o.ctxAfter o.threadId).exec.run _ = _ :=
    callbackAfter_unlocked (beforeResult w o.irb b o.ctxBefore o.hasEA o.ea o.threadId)
      o.ctxAfter o.threadId w.insts.length
      ((builderAfter b o.hasEA o.ea o.threadId).process o.threadId)
      (by simpa [beforeResult] using h) (by simp [beforeResult]) (by simp [beforeResult])
  rw [Occurrence.events, runEvents_cons_ok _ _ w _ h1, runEvents_cons_ok _ _ _ _ h2,
    runEvents_nil]
  rfl

theorem pair_locked (w : World) (o : Occurrence) (h : w.analysisTrigger.getState = false) :
    (runEvents o.events).run w =
      .ok ((), w.recording [.applyConfBeforeProcessing o.irb, .getState false,
        .getState false]) := by
  have h1 : (Event.callbackBefore o.irb o.ctxBefore o.hasEA o.ea o.threadId).exec.run w = _ :=
    callbackBefore_locked w o.irb o.ctxBefore o.hasEA o.ea o.threadId h
  have h2 : (Event.callbackAfter o.ctxAfter o.threadId).exec.run _ = _ :=
    callbackAfter_locked
      (w.recording [.applyConfBeforeProcessing o.irb, .getState false]) o.ctxAfter o.threadId
      (by simpa [World.recording] using h)
  rw [Occurrence.events, runEvents_cons_ok _ _ w _ h1, runEvents_cons_ok _ _ _ _ h2,
    runEvents_nil, recording_recording]
  rfl

theorem builderAfter_branch (b : IRBuilder) (hasEA : Bool) (ea : ADDRINT)
    (threadId : THREADID) : (builderAfter b hasEA ea threadId).branch = b.branch := by
  cases hasEA <;> rfl

theorem map_branch_set (irbs : List IRBuilder) (irb : IRBuilderPtr) (b b2 : IRBuilder)
    (hb : irbs[irb]? = some b) (hbr : b2.branch = b.branch) :
    (irbs.set irb b2).map (fun x => x.branch) = irbs.map (fun x => x.branch) := by
  apply List.ext_getElem?
  intro n
  simp only [List.getElem?_map, List.getElem?_set]
  by_cases hn : irb = n
  · subst hn
    by_cases hlt : irb < irbs.length
    · simp [hlt, hb, hbr]
    · simp [List.getElem?_eq_none (Nat.le_of_not_lt hlt)] at hb
  · simp [hn]

theorem isBranchAt_eq_map (w : World) (irb : IRBuilderPtr) :
    isBranchAt w irb = ((w.irbs.map fun x => x.branch)[irb]?).getD false := by
  unfold isBranchAt
  rw [List.getElem?_map]
  cases w.irbs[irb]? <;> rfl

theorem isBranchAt_congr (w w1 : World)
    (h : (w1.irbs.map fun x => x.branch) = w.irbs.map fun x => x.branch)
    (irb : IRBuilderPtr) : isBranchAt w1 irb = isBranchAt w irb := by
  rw [isBranchAt_eq_map, isBranchAt_eq_map, h]

theorem pairResult_facts (w : World) (o : Occurrence) (b : IRBuilder)
    (hb : w.irbs[o.irb]? = some b) :
    (pairResult w o b).analysisTrigger = w.analysisTrigger ∧
    ((pairResult w o b).irbs.map fun x => x.branch) = (w.irbs.map fun x => x.branch) ∧
    (pairResult w o b).insts.length = w.insts.length + 1 ∧
    (pairResult w o b).ap.numberOfBranchesTaken =
      (if isBranchAt w o.irb then w.ap.numberOfBranchesTaken + 1
       else w.ap.numberOfBranchesTaken) ∧
    (pairResult w o b).calls.filter Call.isInstructionCallback =
      w.calls.filter Call.isInstructionCallback ++
        [.callbackBefore w.insts.length, .callbackAfter w.insts.length] := by
  refine ⟨rfl, ?_, ?_, ?_, ?_⟩
  · exact map_branch_set w.irbs o.irb b _ hb (builderAfter_branch b _ _ _)
  · simp [pairResult, afterResult, beforeResult]
  · simp [pairResult, afterResult, beforeResult, isBranchAt, hb, Inst.isBranch,
      IRBuilder.process, builderAfter_branch]
  · cases hEA : o.hasEA <;>
    simp [pairResult, afterResult, beforeResult, beforeCalls, afterCalls, hEA,
      List.filter_append, List.filter_cons, Call.isInstructionCallback]

theorem trace_unlocked (trace : List Occurrence) (w : World)
    (h : w.analysisTrigger.getState = true)
    (hvalid : ∀ o ∈ trace, o.irb < w.irbs.length) :
    ∃ w1, (runEvents (Occurrence.trace trace)).run w = .ok ((), w1) ∧
      w1.analysisTrigger = w.analysisTrigger ∧
      w1.insts.length = w.insts.length + trace.length ∧
      w1.ap.numberOfBranchesTaken =
        w.ap.numberOfBranchesTaken + (trace.countP fun o => isBranchAt w o.irb) ∧
      w1.calls.filter Call.isInstructionCallback =
        w.calls.filter Call.isInstructionCallback ++
          callbackPairs w.insts.length trace.length := by
  induction trace generalizing w with
  | nil =>
    refine ⟨w, runEvents_nil w, rfl, rfl, ?_, ?_⟩
    · simp
    · simp [callbackPairs]
  | cons o rest ih =>
    have hlt := hvalid o (List.mem_cons_self _ _)
    obtain ⟨b, hb⟩ : ∃ b, w.irbs[o.irb]? = some b :=
      ⟨w.irbs[o.irb], by simp [List.getElem?_eq_getElem hlt]⟩
    have hpair := pair_unlocked w o b h hb
    obtain ⟨ht, hbr, hlen, hcount, hcalls⟩ := pairResult_facts w o b hb
    have hirbs : (pairResult w o b).irbs.length = w.irbs.length := by
      have := congrArg List.length hbr
      simpa using this
    obtain ⟨w1, hrun, ht1, hlen1, hcount1, hcalls1⟩ := ih (pairResult w o b)
      (by rw [ht]; exact h)
      (fun o2 ho2 => by rw [hirbs]; exact hvalid o2 (List.mem_cons_of_mem _ ho2))
    refine ⟨w1, ?_, ?_, ?_, ?_, ?_⟩
    · rw [Occurrence.trace, runEvents_append_ok _ _ w _ hpair]
      exact hrun
    · rw [ht1, ht]
    · rw [hlen1, hlen, List.length_cons]
      omega
    · rw [hcount1, hcount, List.countP_cons]
      have hfun : (fun o2 : Occurrence => isBranchAt (pairResult w o b) o2.irb) =
          fun o2 => isBranchAt w o2.irb := by
        funext o2
        exact isBranchAt_congr w _ hbr o2.irb
      rw [hfun]
      cases hbo : isBranchAt w o.irb
      · simp
      · simp
        omega
    · rw [hcalls1, hcalls, hlen, List.length_cons, List.append_assoc]
      rfl

/-! ## The instrumentation routines -/

theorem forIn_run {α : Type} (l : List α) (f : α → PUnit → M (ForInStep PUnit))
    (step : World → α → World)
    (hf : ∀ a r w, f a r w = .ok (.yield ⟨⟩, step w a)) (w : World) :
    (forIn l ⟨⟩ f : M PUnit) w = .ok (⟨⟩, l.foldl step w) := by
  induction l generalizing w with
  | nil => rfl
  | cons a l ih =>
    simp only [List.forIn_cons, List.foldl_cons]
    show (f a ⟨⟩ >>= _ : M PUnit) w = _
    simp only [bind, StateT.bind, hf, Except.bind]
    exact ih _

theorem forIn_bind_run {α β : Type} (l : List α) (f : α → PUnit → M (ForInStep PUnit))
    (step : World → α → World) (k : PUnit → M β)
    (hf : ∀ a r w, f a r w = .ok (.yield ⟨⟩, step w a)) (w : World) :
    ((forIn l ⟨⟩ f : M PUnit) >>= k) w = k ⟨⟩ (l.foldl step w) := by
  simp only [bind, StateT.bind, forIn_run l f step hf, Except.bind]

theorem foldl_instrumentStep (bbl : List INS) (w : World) :
    bbl.foldl instrumentStep w =
      { w with
        irbs := w.irbs ++ bbl.map IRBuilder.ofINS
        insRequests := w.insRequests ++ requestsFrom w.irbs.length bbl } := by
  induction bbl generalizing w with
  | nil => simp [requestsFrom]
  | cons ins rest ih =>
    rw [List.foldl_cons, ih]
    simp [instrumentStep, requestsFrom, List.append_assoc]

theorem requestsFrom_append (a b : List INS) (irb : IRBuilderPtr) :
    requestsFrom irb (a ++ b) = requestsFrom irb a ++ requestsFrom (irb + a.length) b := by
  induction a generalizing irb with
  | nil => simp [requestsFrom]
  | cons ins rest ih =>
    simp [requestsFrom, ih, List.append_assoc, Nat.add_assoc, Nat.add_comm 1]

theorem foldl_trace (trace : TRACE) (w : World) :
    trace.foldl (fun w bbl => bbl.foldl instrumentStep w) w =
      { w with
        irbs := w.irbs ++ (TRACE.instructions trace).map IRBuilder.ofINS
        insRequests := w.insRequests ++ requestsFrom w.irbs.length (TRACE.instructions trace) } := by
  induction trace generalizing w with
  | nil => simp [TRACE.instructions, requestsFrom]
  | cons bbl rest ih =>
    rw [List.foldl_cons, ih, foldl_instrumentStep]
    simp [TRACE.instructions, requestsFrom_append, List.append_assoc]

theorem TRACE_Instrumentation_run (trace : TRACE) (w : World) :
    (TRACE_Instrumentation trace).run w =
      .ok ((), { w with
        irbs := w.irbs ++ (TRACE.instructions trace).map IRBuilder.ofINS
        insRequests := w.insRequests ++ requestsFrom w.irbs.length (TRACE.instructions trace) }) := by
  rw [← foldl_trace]
  unfold TRACE_Instrumentation
  simp only [StateT.run]
  rw [forIn_bind_run trace _ (fun w bbl => bbl.foldl instrumentStep w)]
  · rfl
  · intro bbl r w
    rw [forIn_bind_run bbl _ instrumentStep]
    · rfl
    · intro ins r w
      cases hm : decide (0 < ins.memoryOperandCount) <;> cases hs : ins.isSyscall <;>
        cases hf : ins.hasFallThrough <;>
      simp_all [Functor.map, StateT.map, bind, Except.bind, StateT.bind, createIRBuilder,
        INS_InsertCall, instrumentStep, requestsOf, INS_MemoryOperandCount, INS_IsSyscall,
        INS_HasFallThrough, pure, StateT.pure, Except.pure]

theorem foldl_entryStep (img : IMG) (l : List (String × PyObject)) (w : World) :
    l.foldl (entryStep img) w =
      { w with rtnRequests := w.rtnRequests ++ entryRequests img l } := by
  induction l generalizing w with
  | nil => simp [entryRequests]
  | cons it rest ih =>
    rw [List.foldl_cons, ih]
    cases hf : RTN_FindByName img it.1 <;> simp [entryStep, entryRequests, hf]

theorem foldl_exitStep (img : IMG) (l : List (String × PyObject)) (w : World) :
    l.foldl (exitStep img) w =
      { w with rtnRequests := w.rtnRequests ++ exitRequests img l } := by
  induction l generalizing w with
  | nil => simp [exitRequests]
  | cons it rest ih =>
    rw [List.foldl_cons, ih]
    cases hf : RTN_FindByName img it.1 <;> simp [exitStep, exitRequests, hf]

theorem IMG_Instrumentation_run (options : PyTritonOptions) (img : IMG) (w : World) :
    (IMG_Instrumentation options img).run w =
      .ok ((), { w with
        rtnRequests :=
          w.rtnRequests ++ startRequests options img ++
            entryRequests img options.callbackRoutineEntry ++
            exitRequests img options.callbackRoutineExit }) := by
  have hentry : ∀ (it : String × PyObject) (w : World),
      (match RTN_FindByName img it.1 with
        | some targetRTN =>
          StateT.bind
            (RTN_InsertCall targetRTN .IPOINT_BEFORE (.callbackRoutineEntry it.2))
            fun _ => StateT.pure (ForInStep.yield PUnit.unit)
        | none => (StateT.pure ()).bind fun _ => StateT.pure (ForInStep.yield PUnit.unit) :
          M (ForInStep PUnit)) w = .ok (.yield ⟨⟩, entryStep img w it) := by
    intro it w
    cases hf : RTN_FindByName img it.1 <;>
    simp [hf, bind, StateT.bind, StateT.pure, Except.bind, pure, Except.pure, entryStep,
      RTN_InsertCall]
  have hexit : ∀ (it : String × PyObject) (w : World),
      (match RTN_FindByName img it.1 with
        | some targetRTN =>
          StateT.bind
            (RTN_InsertCall targetRTN .IPOINT_AFTER (.callbackRoutineExit it.2))
            fun _ => StateT.pure (ForInStep.yield PUnit.unit)
        | none => (StateT.pure ()).bind fun _ => StateT.pure (ForInStep.yield PUnit.unit) :
          M (ForInStep PUnit)) w = .ok (.yield ⟨⟩, exitStep img w it) := by
    intro it w
    cases hf : RTN_FindByName img it.1 <;>
    simp [hf, bind, StateT.bind, StateT.pure, Except.bind, pure, Except.pure, exitStep,
      RTN_InsertCall]
  unfold IMG_Instrumentation
  simp only [StateT.run]
  cases hs : options.startAnalysisFromSymbol with
  | none =>
    simp only [bind, StateT.bind, pure, StateT.pure, Except.pure, Except.bind]
    rw [forIn_run options.callbackRoutineEntry _ (entryStep img) (fun it _ w => hentry it w)]
    simp only []
    rw [forIn_run options.callbackRoutineExit _ (exitStep img) (fun it _ w => hexit it w)]
    simp [foldl_entryStep, foldl_exitStep, startRequests, hs]
  | some symbol =>
    cases hf : RTN_FindByName img symbol with
    | none =>
      simp only [hf, bind, StateT.bind, pure, StateT.pure, Except.pure, Except.bind]
      rw [forIn_run options.callbackRoutineEntry _ (entryStep img) (fun it _ w => hentry it w)]
      simp only []
      rw [forIn_run options.callbackRoutineExit _ (exitStep img) (fun it _ w => hexit it w)]
      simp [foldl_entryStep, foldl_exitStep, startRequests, hs, hf]
    | some targetRTN =>
      simp only [hf, bind, StateT.bind, pure, StateT.pure, Except.pure, Except.bind,
        RTN_InsertCall]
      rw [forIn_run options.callbackRoutineEntry _ (entryStep img) (fun it _ w => hentry it w)]
      simp only []
      rw [forIn_run options.callbackRoutineExit _ (exitStep img) (fun it _ w => hexit it w)]
      simp [foldl_entryStep, foldl_exitStep, startRequests, hs, hf]

/-! ## The last-instruction slot along a run -/

theorem lastStored_append (a b : List Call) :
    lastStored (a ++ b) = (lastStored b).or (lastStored a) := by
  induction a with
  | nil =>
    simp only [List.nil_append, lastStored]
    cases lastStored b <;> rfl
  | cons c rest ih =>
    rw [List.cons_append, lastStored, ih, lastStored]
    cases lastStored b <;> cases lastStored rest <;> rfl

theorem lastStored_beforeCalls (irb : IRBuilderPtr) (b : IRBuilder) (ctx : CONTEXT)
    (hasEA : Bool) (ea : ADDRINT) (threadId : THREADID) (inst : InstPtr) :
    lastStored (beforeCalls irb b ctx hasEA ea threadId inst) = some inst := by
  cases hasEA <;> simp [beforeCalls, lastStored, Call.stored]

/-- Either the interception stores nothing (slot, heaps kept, no store recorded) or it is
a before-interception that passed the gate. -/
theorem exec_cases (e : Event) (w w1 : World) (h : e.exec.run w = .ok ((), w1)) :
    (w1.ap.lastInstruction = w.ap.lastInstruction ∧ w1.insts = w.insts ∧
      w1.irbs = w.irbs ∧ ∃ cs, w1.calls = w.calls ++ cs ∧ lastStored cs = none) ∨
    (∃ irb b ctx hasEA ea threadId, e = .callbackBefore irb ctx hasEA ea threadId ∧
      w.analysisTrigger.getState = true ∧ w.irbs[irb]? = some b ∧
      w1 = beforeResult w irb b ctx hasEA ea threadId) := by
  cases hs : w.analysisTrigger.getState with
  | false =>
    left
    cases e with
    | toggleWrapper flag =>
      simp only [Event.exec, toggleWrapper_run] at h
      cases h
      exact ⟨rfl, rfl, rfl, _, rfl, by simp [lastStored, Call.stored]⟩
    | callbackBefore irb ctx hasEA ea threadId =>
      simp only [Event.exec, callbackBefore_locked w irb ctx hasEA ea threadId hs] at h
      cases h
      exact ⟨rfl, rfl, rfl, _, rfl, by simp [lastStored, Call.stored]⟩
    | callbackAfter ctx threadId =>
      simp only [Event.exec, callbackAfter_locked w ctx threadId hs] at h
      cases h
      exact ⟨rfl, rfl, rfl, _, rfl, by simp [lastStored, Call.stored]⟩
    | callbackRoutineEntry threadId callback =>
      simp only [Event.exec, callbackRoutineEntry_locked w threadId callback hs] at h
      cases h
      exact ⟨rfl, rfl, rfl, _, rfl, by simp [lastStored, Call.stored]⟩
    | callbackRoutineExit threadId callback =>
      simp only [Event.exec, callbackRoutineExit_locked w threadId callback hs] at h
      cases h
      exact ⟨rfl, rfl, rfl, _, rfl, by simp [lastStored, Call.stored]⟩
    | callbackSyscallEntry threadId ctx std =>
      simp only [Event.exec, callbackSyscallEntry_locked w threadId ctx std hs] at h
      cases h
      exact ⟨rfl, rfl, rfl, _, rfl, by simp [lastStored, Call.stored]⟩
    | callbackSyscallExit threadId ctx std =>
      simp only [Event.exec, callbackSyscallExit_locked w threadId ctx std hs] at h
      cases h
      exact ⟨rfl, rfl, rfl, _, rfl, by simp [lastStored, Call.stored]⟩
  | true =>
    cases e with
    | toggleWrapper flag =>
      left
      simp only [Event.exec, toggleWrapper_run] at h
      cases h
      exact ⟨rfl, rfl, rfl, _, rfl, by simp [lastStored, Call.stored]⟩
    | callbackBefore irb ctx hasEA ea threadId =>
      right
      cases hb : w.irbs[irb]? with
      | none =>
        simp only [Event.exec, callbackBefore_invalid w irb ctx hasEA ea threadId hs hb] at h
        cases h
      | some b =>
        simp only [Event.exec, callbackBefore_unlocked w irb b ctx hasEA ea threadId hs hb] at h
        cases h
        exact ⟨irb, b, ctx, hasEA, ea, threadId, rfl, rfl, hb, rfl⟩
    | callbackAfter ctx threadId =>
      left
      cases hl : w.ap.lastInstruction with
      | none =>
        simp only [Event.exec, callbackAfter_noInstruction w ctx threadId hs hl] at h
        cases h
      | some inst =>
        cases hi : w.insts[inst]? with
        | none =>
          simp only [Event.exec, callbackAfter_invalid w ctx threadId inst hs hl hi] at h
          cases h
        | some i =>
          simp only [Event.exec, callbackAfter_unlocked w ctx threadId inst i hs hl hi] at h
          cases h
          exact ⟨by simp [afterResult, hl], rfl, rfl, _, rfl, by simp [afterCalls, lastStored, Call.stored]⟩
    | callbackRoutineEntry threadId callback =>
      left
      simp only [Event.exec, callbackRoutineEntry_unlocked w threadId callback hs] at h
      cases h
      exact ⟨rfl, rfl, rfl, _, rfl, by simp [lastStored, Call.stored]⟩
    | callbackRoutineExit threadId callback =>
      left
      simp only [Event.exec, callbackRoutineExit_unlocked w threadId callback hs] at h
      cases h
      exact ⟨rfl, rfl, rfl, _, rfl, by simp [lastStored, Call.stored]⟩
    | callbackSyscallEntry threadId ctx std =>
      left
      simp only [Event.exec, callbackSyscallEntry_unlocked w threadId ctx std hs] at h
      cases h
      exact ⟨rfl, rfl, rfl, _, rfl, by simp [lastStored, Call.stored]⟩
    | callbackSyscallExit threadId ctx std =>
      left
      simp only [Event.exec, callbackSyscallExit_unlocked w threadId ctx std hs] at h
      cases h
      exact ⟨rfl, rfl, rfl, _, rfl, by simp [lastStored, Call.stored]⟩

theorem exec_slotAgrees (e : Event) (w w1 : World) (h : e.exec.run w = .ok ((), w1))
    (hw : w.slotAgrees) : w1.slotAgrees := by
  rcases exec_cases e w w1 h with ⟨hl, _, _, cs, hcs, hnone⟩ | ⟨irb, b, ctx, hasEA, ea, threadId, _, _, _, rfl⟩
  · unfold World.slotAgrees at hw ⊢
    rw [hl, hcs, lastStored_append, hnone]
    simpa using hw
  · unfold World.slotAgrees
    simp [beforeResult, lastStored_append, lastStored_beforeCalls]

theorem runEvents_slotAgrees (evs : List Event) (w w1 : World)
    (h : (runEvents evs).run w = .ok ((), w1)) (hw : w.slotAgrees) : w1.slotAgrees := by
  induction evs generalizing w with
  | nil =>
    rw [runEvents_nil] at h
    cases h
    exact hw
  | cons e rest ih =>
    cases he : e.exec.run w with
    | error err =>
      rw [runEvents_cons_error e rest w err he] at h
      cases h
    | ok r =>
      obtain ⟨u, w2⟩ := r
      rw [runEvents_cons_ok e rest w w2 he] at h
      exact ih w2 h (exec_slotAgrees e w w2 he hw)

theorem runEvents_single (e : Event) (w w1 : World) (h : e.exec.run w = .ok ((), w1)) :
    (runEvents [e]).run w = .ok ((), w1) := by
  rw [runEvents_cons_ok e [] w w1 h, runEvents_nil]

/-! ## The slot stays filled and valid -/

theorem runEvents_cons_split (e : Event) (rest : List Event) (w w2 : World)
    (h : (runEvents (e :: rest)).run w = .ok ((), w2)) :
    ∃ w1, e.exec.run w = .ok ((), w1) ∧ (runEvents rest).run w1 = .ok ((), w2) := by
  cases he : e.exec.run w with
  | error err =>
    rw [runEvents_cons_error e rest w err he] at h
    cases h
  | ok r =>
    obtain ⟨u, w1⟩ := r
    rw [runEvents_cons_ok e rest w w1 he] at h
    exact ⟨w1, rfl, h⟩

theorem slotValid_of_none (w : World) (h : w.ap.lastInstruction = none) : w.slotValid := by
  unfold World.slotValid
  rw [h]
  trivial

theorem slotValid_some (w : World) (inst : InstPtr) (hv : w.slotValid)
    (hl : w.ap.lastInstruction = some inst) : ∃ i, w.insts[inst]? = some i := by
  unfold World.slotValid at hv
  rw [hl] at hv
  exact ⟨w.insts[inst], by simp [List.getElem?_eq_getElem hv]⟩

theorem exec_slotValid (e : Event) (w w1 : World) (h : e.exec.run w = .ok ((), w1))
    (hw : w.slotValid) : w1.slotValid := by
  rcases exec_cases e w w1 h with ⟨hl, hi, _, _⟩ | ⟨irb, b, ctx, hasEA, ea, threadId, _, _, _, rfl⟩
  · unfold World.slotValid at hw ⊢
    rw [hl, hi]
    exact hw
  · unfold World.slotValid
    simp [beforeResult]

theorem exec_filled (e : Event) (w w1 : World) (h : e.exec.run w = .ok ((), w1))
    (hw : w.ap.lastInstruction ≠ none) : w1.ap.lastInstruction ≠ none := by
  rcases exec_cases e w w1 h with ⟨hl, _, _, _⟩ | ⟨irb, b, ctx, hasEA, ea, threadId, _, _, _, rfl⟩
  · rw [hl]
    exact hw
  · simp [beforeResult]

theorem runEvents_slotValid (evs : List Event) (w w1 : World)
    (h : (runEvents evs).run w = .ok ((), w1)) (hw : w.slotValid) : w1.slotValid := by
  induction evs generalizing w with
  | nil =>
    rw [runEvents_nil] at h
    cases h
    exact hw
  | cons e rest ih =>
    obtain ⟨w2, he, hrest⟩ := runEvents_cons_split e rest w w1 h
    exact ih w2 hrest (exec_slotValid e w w2 he hw)

theorem runEvents_filled (evs : List Event) (w w1 : World)
    (h : (runEvents evs).run w = .ok ((), w1)) (hw : w.ap.lastInstruction ≠ none) :
    w1.ap.lastInstruction ≠ none := by
  induction evs generalizing w with
  | nil =>
    rw [runEvents_nil] at h
    cases h
    exact hw
  | cons e rest ih =>
    obtain ⟨w2, he, hrest⟩ := runEvents_cons_split e rest w w1 h
    exact ih w2 hrest (exec_filled e w w2 he hw)

theorem runEvents_storesNothing (evs : List Event) (w w1 : World)
    (h : (runEvents evs).run w = .ok ((), w1))
    (hn : storesNothing w.analysisTrigger evs = true) :
    w1.ap.lastInstruction = w.ap.lastInstruction := by
  induction evs generalizing w with
  | nil =>
    rw [runEvents_nil] at h
    cases h
    rfl
  | cons e rest ih =>
    obtain ⟨w2, he, hrest⟩ := runEvents_cons_split e rest w w1 h
    have ht := exec_trigger e w w2 he
    have hkeep : w2.ap.lastInstruction = w.ap.lastInstruction ∧
        storesNothing w2.analysisTrigger rest = true := by
      rcases exec_cases e w w2 he with ⟨hl, _, _, _⟩ | ⟨irb, b, ctx, hasEA, ea, threadId, rfl, hs, _, _⟩
      · refine ⟨hl, ?_⟩
        rw [ht]
        cases e <;> first
          | exact hn
          | (simp only [storesNothing, Bool.and_eq_true] at hn; exact hn.2)
      · simp [storesNothing, hs] at hn
    rw [ih w2 hrest hkeep.2, hkeep.1]

/-! ## What the registrar asks for each instruction -/

theorem requestsFrom_before_mem (l : List INS) (irb : IRBuilderPtr) (k : Nat) (ins : INS)
    (h : l[k]? = some ins) :
    (⟨ins, .IPOINT_BEFORE,
      .callbackBefore (irb + k) (decide (0 < INS_MemoryOperandCount ins))
        (if 0 < INS_MemoryOperandCount ins then .IARG_MEMORYOP_EA 0
         else .IARG_ADDRINT 0)⟩ : InsRequest) ∈ requestsFrom irb l := by
  induction l generalizing irb k with
  | nil => simp at h
  | cons x rest ih =>
    rw [requestsFrom, List.mem_append]
    cases k with
    | zero =>
      left
      simp only [List.getElem?_cons_zero, Option.some.injEq] at h
      subst h
      simp [requestsOf, INS_MemoryOperandCount]
    | succ k =>
      right
      simp only [List.getElem?_cons_succ] at h
      have := ih (irb + 1) k h
      rw [Nat.add_assoc, Nat.add_comm 1 k] at this
      exact this

theorem requestsFrom_before_shape (l : List INS) (irb : IRBuilderPtr) :
    ∀ r ∈ requestsFrom irb l, ∀ irb2 hasEA eaArg,
      r.call = .callbackBefore irb2 hasEA eaArg →
      r.point = .IPOINT_BEFORE ∧
      (hasEA = true ↔ 0 < INS_MemoryOperandCount r.ins) ∧
      eaArg = (if hasEA then .IARG_MEMORYOP_EA 0 else .IARG_ADDRINT 0) := by
  induction l generalizing irb with
  | nil => simp [requestsFrom]
  | cons ins rest ih =>
    intro r hr irb2 hasEA eaArg hcall
    rw [requestsFrom, List.mem_append] at hr
    rcases hr with hr | hr
    · unfold requestsOf at hr
      rw [List.mem_append] at hr
      rcases hr with hr | hr
      · rw [List.mem_singleton] at hr
        subst hr
        simp only [InsCall.callbackBefore.injEq] at hcall
        obtain ⟨_, h2, h3⟩ := hcall
        subst h2
        subst h3
        by_cases hm : 0 < ins.memoryOperandCount <;> simp [INS_MemoryOperandCount, hm]
      · split at hr
        · simp at hr
        · rw [List.mem_singleton] at hr
          subst hr
          simp at hcall
    · exact ih (irb + 1) r hr irb2 hasEA eaArg hcall

/-! ## The start-symbol region -/

theorem event_isToggle (r : RtnRequest) (threadId : THREADID) :
    (r.event threadId).isToggle = r.isToggle := by
  unfold RtnRequest.event RtnRequest.isToggle
  cases r.call <;> rfl

theorem entryRequests_noToggle (img : IMG) (l : List (String × PyObject)) :
    ∀ r ∈ entryRequests img l, r.isToggle = false := by
  induction l with
  | nil => simp [entryRequests]
  | cons it rest ih =>
    intro r hr
    rw [entryRequests, List.mem_append] at hr
    rcases hr with hr | hr
    · cases hf : RTN_FindByName img it.1 with
      | none => simp [hf] at hr
      | some rtn =>
        simp only [hf, List.mem_singleton] at hr
        subst hr
        rfl
    · exact ih r hr

theorem exitRequests_noToggle (img : IMG) (l : List (String × PyObject)) :
    ∀ r ∈ exitRequests img l, r.isToggle = false := by
  induction l with
  | nil => simp [exitRequests]
  | cons it rest ih =>
    intro r hr
    rw [exitRequests, List.mem_append] at hr
    rcases hr with hr | hr
    · cases hf : RTN_FindByName img it.1 with
      | none => simp [hf] at hr
      | some rtn =>
        simp only [hf, List.mem_singleton] at hr
        subst hr
        rfl
    · exact ih r hr

theorem rtnEvents_noToggle (requests : List RtnRequest) (rtn : RTN) (point : IPOINT)
    (threadId : THREADID) (h : ∀ r ∈ requests, r.isToggle = false) :
    ∀ e ∈ rtnEvents requests rtn point threadId, e.isToggle = false := by
  intro e he
  unfold rtnEvents at he
  rw [List.mem_map] at he
  obtain ⟨r, hr, rfl⟩ := he
  rw [event_isToggle]
  exact h r (List.mem_of_mem_filter hr)

theorem rtnEvents_append (a b : List RtnRequest) (rtn : RTN) (point : IPOINT)
    (threadId : THREADID) :
    rtnEvents (a ++ b) rtn point threadId =
      rtnEvents a rtn point threadId ++ rtnEvents b rtn point threadId := by
  simp [rtnEvents, List.filter_append]

/-- What the host calls at the entry and at the exit of the start symbol's routine once
`IMG_Instrumentation` has run on a state with no routine request yet. -/
theorem start_symbol_events (options : PyTritonOptions) (img : IMG) (symbol : String)
    (main : RTN) (threadId : THREADID)
    (hsym : options.startAnalysisFromSymbol = some symbol)
    (hfind : RTN_FindByName img symbol = some main) :
    (∃ entry, rtnEvents (startRequests options img ++
        entryRequests img options.callbackRoutineEntry ++
        exitRequests img options.callbackRoutineExit) main .IPOINT_BEFORE threadId =
          .toggleWrapper true :: entry ∧ ∀ e ∈ entry, e.isToggle = false) ∧
    (∃ exit, rtnEvents (startRequests options img ++
        entryRequests img options.callbackRoutineEntry ++
        exitRequests img options.callbackRoutineExit) main .IPOINT_AFTER threadId =
          .toggleWrapper false :: exit ∧ ∀ e ∈ exit, e.isToggle = false) := by
  have hstart : startRequests options img =
      [⟨main, .IPOINT_BEFORE, .toggleWrapper true⟩,
       ⟨main, .IPOINT_AFTER, .toggleWrapper false⟩] := by
    simp [startRequests, hsym, hfind]
  have hrest : ∀ r ∈ entryRequests img options.callbackRoutineEntry ++
      exitRequests img options.callbackRoutineExit, r.isToggle = false := by
    intro r hr
    rcases List.mem_append.mp hr with hr | hr
    · exact entryRequests_noToggle _ _ r hr
    · exact exitRequests_noToggle _ _ r hr
  constructor
  · refine ⟨rtnEvents (entryRequests img options.callbackRoutineEntry ++
      exitRequests img options.callbackRoutineExit) main .IPOINT_BEFORE threadId, ?_,
      rtnEvents_noToggle _ _ _ _ hrest⟩
    rw [List.append_assoc, rtnEvents_append, hstart]
    simp [rtnEvents, List.filter_cons, RtnRequest.event]
  · refine ⟨rtnEvents (entryRequests img options.callbackRoutineEntry ++
      exitRequests img options.callbackRoutineExit) main .IPOINT_AFTER threadId, ?_,
      rtnEvents_noToggle _ _ _ _ hrest⟩
    rw [List.append_assoc, rtnEvents_append, hstart]
    simp [rtnEvents, List.filter_cons, RtnRequest.event]

theorem instructionCallback_isScript (c : Call) (h : c.isInstructionCallback = true) :
    c.isScriptCallback = true := by
  cases c <;> first | rfl | simp [Call.isInstructionCallback] at h

theorem filter_quiet (cs : List Call) (h : ∀ c ∈ cs, c.isQuiet = true) :
    cs.filter Call.isScriptCallback = [] ∧ cs.filter Call.isInstructionCallback = [] := by
  constructor
  · rw [List.filter_eq_nil_iff]
    intro c hc
    have := h c hc
    simp [Call.isQuiet] at this
    simp [this.1.1]
  · rw [List.filter_eq_nil_iff]
    intro c hc hi
    have := h c hc
    simp [Call.isQuiet] at this
    have h2 := instructionCallback_isScript c hi
    rw [this.1.1] at h2
    cases h2

theorem triggerAfter_toggle (flag : Bool) (rest : List Event) (t : Trigger) :
    triggerAfter (.toggleWrapper flag :: rest) t = triggerAfter rest (t.update flag) := rfl

/-! ## One activation of the start symbol's routine -/

/-- The run of the start-symbol scenario: instrumentation of the image with only a start
symbol, interceptions before the routine, then its entry, the instructions of its body
and its exit. -/
theorem region_run (img : IMG) (symbol : String) (main : RTN) (w : World)
    (threadId : THREADID) (before : List Event) (body : List Occurrence)
    (hfind : RTN_FindByName img symbol = some main)
    (hlocked : w.analysisTrigger.state = .LOCKED)
    (hreq : w.rtnRequests = [])
    (hbefore : ∀ e ∈ before, e.isToggle = false)
    (hvalid : ∀ o ∈ body, o.irb < w.irbs.length) :
    ∃ w1 w2 w3,
      (IMG_Instrumentation ⟨some symbol, [], []⟩ img).run w = .ok ((), w1) ∧
      (runEvents before).run w1 = .ok ((), w2) ∧
      w2.calls.filter Call.isScriptCallback = w.calls.filter Call.isScriptCallback ∧
      (runEvents (rtnEvents w1.rtnRequests main .IPOINT_BEFORE threadId ++
        Occurrence.trace body ++
        rtnEvents w1.rtnRequests main .IPOINT_AFTER threadId)).run w2 = .ok ((), w3) ∧
      w3.calls.filter Call.isInstructionCallback =
        w.calls.filter Call.isInstructionCallback ++
          callbackPairs w.insts.length body.length ∧
      w3.ap.numberOfBranchesTaken =
        w.ap.numberOfBranchesTaken + (body.countP fun o => isBranchAt w o.irb) ∧
      w3.analysisTrigger.state = .LOCKED := by
  have hrun := IMG_Instrumentation_run ⟨some symbol, [], []⟩ img w
  have hreqs : w.rtnRequests ++ startRequests ⟨some symbol, [], []⟩ img ++
      entryRequests img [] ++ exitRequests img [] =
      [⟨main, .IPOINT_BEFORE, .toggleWrapper true⟩,
       ⟨main, .IPOINT_AFTER, .toggleWrapper false⟩] := by
    simp [hreq, startRequests, hfind, entryRequests, exitRequests]
  simp only [hreqs] at hrun
  obtain ⟨cs, hpre, hq⟩ := runEvents_locked before
    { w with rtnRequests := [⟨main, .IPOINT_BEFORE, .toggleWrapper true⟩,
       ⟨main, .IPOINT_AFTER, .toggleWrapper false⟩] } hbefore (getState_of_locked _ hlocked)
  obtain ⟨hqs, hqi⟩ := filter_quiet cs hq
  have hentry : rtnEvents [⟨main, .IPOINT_BEFORE, .toggleWrapper true⟩,
       ⟨main, .IPOINT_AFTER, .toggleWrapper false⟩] main .IPOINT_BEFORE threadId =
      [.toggleWrapper true] := by
    simp [rtnEvents, List.filter_cons, RtnRequest.event]
  have hexit : rtnEvents [⟨main, .IPOINT_BEFORE, .toggleWrapper true⟩,
       ⟨main, .IPOINT_AFTER, .toggleWrapper false⟩] main .IPOINT_AFTER threadId =
      [.toggleWrapper false] := by
    simp [rtnEvents, List.filter_cons, RtnRequest.event]
  have htog : (runEvents [.toggleWrapper true]).run _ = .ok ((), _) :=
    runEvents_single _ _ _ (toggleWrapper_run
      (World.recording { w with rtnRequests := [⟨main, .IPOINT_BEFORE, .toggleWrapper true⟩,
        ⟨main, .IPOINT_AFTER, .toggleWrapper false⟩] } cs) true)
  obtain ⟨w3, hbody, ht3, _, hcount3, hcalls3⟩ := trace_unlocked body _ 
    (show ({ (World.recording { w with rtnRequests :=
        [⟨main, .IPOINT_BEFORE, .toggleWrapper true⟩,
         ⟨main, .IPOINT_AFTER, .toggleWrapper false⟩] } cs) with
      analysisTrigger := (World.recording { w with rtnRequests :=
        [⟨main, .IPOINT_BEFORE, .toggleWrapper true⟩,
         ⟨main, .IPOINT_AFTER, .toggleWrapper false⟩] } cs).analysisTrigger.update true
      calls := (World.recording { w with rtnRequests :=
        [⟨main, .IPOINT_BEFORE, .toggleWrapper true⟩,
         ⟨main, .IPOINT_AFTER, .toggleWrapper false⟩] } cs).calls ++ [.update true] } :
        World).analysisTrigger.getState = true from rfl)
    hvalid
  have hoff : (runEvents [.toggleWrapper false]).run w3 = .ok ((), { w3 with
      analysisTrigger := w3.analysisTrigger.update false
      calls := w3.calls ++ [.update false] }) :=
    runEvents_single _ _ _ (toggleWrapper_run w3 false)
  refine ⟨_, _, { w3 with
      analysisTrigger := w3.analysisTrigger.update false
      calls := w3.calls ++ [.update false] }, hrun, hpre, ?_, ?_, ?_, ?_, rfl⟩
  · simp [World.recording, List.filter_append, hqs]
  · simp only [hentry, hexit]
    rw [List.append_assoc, runEvents_append_ok _ _ _ _ htog,
      runEvents_append_ok _ _ _ _ hbody, hoff]
  · simp only [List.filter_append, hcalls3, World.recording, hqi]
    simp [Call.isInstructionCallback]
  · rw [hcount3]
    rfl

/-! ## Samples -/

theorem sampleWorld_instrumented :
    (TRACE_Instrumentation sampleTrace).run World.initial = .ok ((), sampleWorld) := by
  rw [TRACE_Instrumentation_run]
  rfl

theorem scenarioWorld_instrumented :
    (TRACE_Instrumentation scenarioTrace).run World.initial = .ok ((), scenarioWorld) := by
  rw [TRACE_Instrumentation_run]
  rfl

theorem sampleUnlocked_toggled :
    (toggleWrapper true).run sampleWorld = .ok ((), sampleUnlocked) := by
  rw [toggleWrapper_run]
  rfl

/-! ## The gate -/

/-- C1: in a state whose Trigger is `LOCKED`, each of the six gated handlers
(`callbackBefore`, `callbackAfter`, `callbackRoutineEntry`, `callbackRoutineExit`,
`callbackSyscallEntry`, `callbackSyscallExit`, that is every interception other than
`toggleWrapper`) returns, and leaves the state as it was but for some recorded calls,
none of which builds an `Inst`, replaces the context or is a script callback; the record
heap, the context, the last-instruction slot and the branch counter are unchanged. -/
theorem locked_trigger_blocks_handlers (w : World) (e : Event)
    (hlocked : w.analysisTrigger.state = .LOCKED) (he : e.isToggle = false) :
    ∃ w1 cs, e.exec.run w = .ok ((), w1) ∧
      w1.calls = w.calls ++ cs ∧
      (∀ c ∈ cs, c.isInstBuild = false ∧ c.isContextRefresh = false ∧
        c.isScriptCallback = false) ∧
      w1.insts = w.insts ∧
      w1.ap.currentCtxH = w.ap.currentCtxH ∧
      w1.ap.lastInstruction = w.ap.lastInstruction ∧
      w1.ap.numberOfBranchesTaken = w.ap.numberOfBranchesTaken ∧
      w1.irbs = w.irbs ∧
      w1.analysisTrigger = w.analysisTrigger := by
  obtain ⟨cs, hrun, hq⟩ := exec_locked e w he (getState_of_locked _ hlocked)
  refine ⟨w.recording cs, cs, hrun, rfl, ?_, rfl, rfl, rfl, rfl, rfl, rfl⟩
  intro c hc
  have := hq c hc
  simpa [Call.isQuiet, and_comm, and_left_comm] using this

theorem locked_trigger_blocks_handlers_witness :
    sampleWorld.analysisTrigger.state = .LOCKED ∧
    (Event.callbackBefore 0 7 true 24576 1).isToggle = false ∧
    ∃ w1 cs, (Event.callbackBefore 0 7 true 24576 1).exec.run sampleWorld = .ok ((), w1) ∧
      w1.calls = sampleWorld.calls ++ cs ∧
      (∀ c ∈ cs, c.isInstBuild = false ∧ c.isContextRefresh = false ∧
        c.isScriptCallback = false) ∧
      w1.insts = sampleWorld.insts ∧
      w1.ap.currentCtxH = sampleWorld.ap.currentCtxH ∧
      w1.ap.lastInstruction = sampleWorld.ap.lastInstruction ∧
      w1.ap.numberOfBranchesTaken = sampleWorld.ap.numberOfBranchesTaken ∧
      w1.irbs = sampleWorld.irbs ∧
      w1.analysisTrigger = sampleWorld.analysisTrigger :=
  ⟨rfl, rfl, locked_trigger_blocks_handlers sampleWorld _ rfl rfl⟩

/-! ## The before-phase -/

/-- C4: `callbackBefore` on a builder `b` at `irb`.  With the Trigger `UNLOCKED` it
returns having made exactly these calls in this order: apply the pre-processing
configuration, check the Trigger, `setup(ea)` iff `hasEA`, replace the context by a
fresh one for `(ctx, threadId)`, tag the builder with the orchestrator's thread
identifier (which is `threadId`), the script's before-IR-processing callback, `process`,
`addInstructionToTrace`, the copies of opcode, category and operands onto the record,
and the script's before-instruction callback with that record; the state then holds the
fresh context, the tagged builder, and the record as last instruction.  With the Trigger
`LOCKED` only the first two calls are made. -/
theorem callbackBefore_steps (w : World) (irb : IRBuilderPtr) (b : IRBuilder)
    (ctx : CONTEXT) (hasEA : Bool) (ea : ADDRINT) (threadId : THREADID) :
    (w.analysisTrigger.state = .UNLOCKED → w.irbs[irb]? = some b →
      ∃ w1 b1 i, (callbackBefore irb ctx hasEA ea threadId).run w = .ok ((), w1) ∧
        w1.calls = w.calls ++
          ([.applyConfBeforeProcessing irb, .getState true] ++
           (if hasEA then [.setup irb ea] else []) ++
           [.updateCurrentCtxH ⟨ctx, threadId⟩,
            .setThreadID irb threadId,
            .callbackBeforeIRProc irb,
            .process irb w.insts.length,
            .addInstructionToTrace w.insts.length,
            .setOpcode w.insts.length b.opcode,
            .setOpcodeCategory w.insts.length b.opcodeCategory,
            .setOperands w.insts.length b1.operands,
            .callbackBefore w.insts.length]) ∧
        w1.ap.currentCtxH = some ⟨ctx, threadId⟩ ∧
        w1.irbs[irb]? = some b1 ∧
        b1.threadId = threadId ∧
        b1.operands = (if hasEA then (b.setup ea).operands else b.operands) ∧
        w1.ap.lastInstruction = some w.insts.length ∧
        w1.insts = w.insts ++ [i] ∧
        i.threadId = threadId ∧
        i.opcode = b.opcode ∧
        i.opcodeCategory = b.opcodeCategory ∧
        i.operands = b1.operands ∧
        w1.ap.numberOfBranchesTaken = w.ap.numberOfBranchesTaken ∧
        w1.analysisTrigger = w.analysisTrigger) ∧
    (w.analysisTrigger.state = .LOCKED →
      (callbackBefore irb ctx hasEA ea threadId).run w =
        .ok ((), { w with
          calls := w.calls ++ [.applyConfBeforeProcessing irb, .getState false] })) := by
  constructor
  · intro hu hb
    refine ⟨beforeResult w irb b ctx hasEA ea threadId, builderAfter b hasEA ea threadId,
      (builderAfter b hasEA ea threadId).process threadId,
      callbackBefore_unlocked w irb b ctx hasEA ea threadId (getState_of_unlocked _ hu) hb,
      rfl, rfl, ?_, rfl, ?_, rfl, rfl, rfl, ?_, ?_, rfl, rfl, rfl⟩
    · exact getElem?_set_of_some _ _ _ _ hb
    · cases hasEA <;> rfl
    · cases hasEA <;> rfl
    · cases hasEA <;> rfl
  · intro hl
    exact callbackBefore_locked w irb ctx hasEA ea threadId (getState_of_locked _ hl)

theorem callbackBefore_steps_witness :
    sampleUnlocked.analysisTrigger.state = .UNLOCKED ∧
    sampleUnlocked.irbs[0]? = some (IRBuilder.ofINS sampleLoad) ∧
    ∃ w1 b1 i, (callbackBefore 0 7 true 24576 1).run sampleUnlocked = .ok ((), w1) ∧
      w1.calls = sampleUnlocked.calls ++
        ([.applyConfBeforeProcessing 0, .getState true] ++
         (if true = true then [.setup 0 24576] else []) ++
         [.updateCurrentCtxH ⟨7, 1⟩,
          .setThreadID 0 1,
          .callbackBeforeIRProc 0,
          .process 0 sampleUnlocked.insts.length,
          .addInstructionToTrace sampleUnlocked.insts.length,
          .setOpcode sampleUnlocked.insts.length (IRBuilder.ofINS sampleLoad).opcode,
          .setOpcodeCategory sampleUnlocked.insts.length
            (IRBuilder.ofINS sampleLoad).opcodeCategory,
          .setOperands sampleUnlocked.insts.length b1.operands,
          .callbackBefore sampleUnlocked.insts.length]) ∧
      w1.ap.currentCtxH = some ⟨7, 1⟩ ∧
      w1.irbs[0]? = some b1 ∧
      b1.threadId = 1 ∧
      b1.operands = (if true = true then ((IRBuilder.ofINS sampleLoad).setup 24576).operands
        else (IRBuilder.ofINS sampleLoad).operands) ∧
      w1.ap.lastInstruction = some sampleUnlocked.insts.length ∧
      w1.insts = sampleUnlocked.insts ++ [i] ∧
      i.threadId = 1 ∧
      i.opcode = (IRBuilder.ofINS sampleLoad).opcode ∧
      i.opcodeCategory = (IRBuilder.ofINS sampleLoad).opcodeCategory ∧
      i.operands = b1.operands ∧
      w1.ap.numberOfBranchesTaken = sampleUnlocked.ap.numberOfBranchesTaken ∧
      w1.analysisTrigger = sampleUnlocked.analysisTrigger :=
  ⟨by decide, by decide,
    (callbackBefore_steps sampleUnlocked 0 (IRBuilder.ofINS sampleLoad) 7 true 24576
      1).1 (by decide) (by decide)⟩

/-! ## The after-phase -/

theorem sampleStored_stored :
    (runEvents [.toggleWrapper true, .callbackBefore 0 7 true 24576 1]).run sampleWorld =
      .ok ((), sampleStored) := by
  have h1 : (Event.toggleWrapper true).exec.run sampleWorld = .ok ((), sampleUnlocked) :=
    sampleUnlocked_toggled
  have h2 : (Event.callbackBefore 0 7 true 24576 1).exec.run sampleUnlocked =
      .ok ((), sampleStored) :=
    callbackBefore_unlocked sampleUnlocked 0 (IRBuilder.ofINS sampleLoad) 7 true 24576 1
      (by decide) (by decide)
  rw [runEvents_cons_ok _ _ _ _ h1, runEvents_single _ _ _ h2]

theorem sampleLateUnlocked_reached :
    (runEvents [.callbackBefore 0 7 true 24576 1, .toggleWrapper true]).run sampleWorld =
      .ok ((), sampleLateUnlocked) := by
  have h1 : (Event.callbackBefore 0 7 true 24576 1).exec.run sampleWorld = .ok ((), _) :=
    callbackBefore_locked sampleWorld 0 7 true 24576 1 (by decide)
  have h2 : (Event.toggleWrapper true).exec.run
      (sampleWorld.recording [.applyConfBeforeProcessing 0, .getState false]) = .ok ((), _) :=
    toggleWrapper_run _ true
  rw [runEvents_cons_ok _ _ _ _ h1, runEvents_single _ _ _ h2]
  rfl

/-- C5 as stated fails: in the state reached from start-up by a before-interception that
ran `LOCKED` followed by `toggleWrapper(true)`, the Trigger is `UNLOCKED` and nothing is
stored, and `callbackAfter` stops at `getLastInstruction` with `NoInstructionYet`: it
neither updates the branch counter nor invokes the script's after-instruction
callback. -/
theorem callbackAfter_before_any_store :
    (runEvents [.callbackBefore 0 7 true 24576 1, .toggleWrapper true]).run sampleWorld =
      .ok ((), sampleLateUnlocked) ∧
    sampleLateUnlocked.analysisTrigger.state = .UNLOCKED ∧
    sampleLateUnlocked.ap.lastInstruction = none ∧
    (callbackAfter 8 1).run sampleLateUnlocked = .error .NoInstructionYet :=
  ⟨sampleLateUnlocked_reached, rfl, rfl,
    callbackAfter_noInstruction sampleLateUnlocked 8 1 (by decide) rfl⟩

/-- C5 amended: `callbackAfter` with the Trigger `UNLOCKED` and an instruction stored
(the last-instruction slot holds `inst`) returns having made exactly these calls in this
order: the gate check, the replacement of the context by a fresh one for
`(ctx, threadId)`, `getLastInstruction`, `incNumberOfBranchesTaken` with the record's
branch classification (the counter moves by one iff it is true), and the script's
after-instruction callback with that same record.  Whenever the state was reached by
interceptions from a start-up state, the record exists and is the one most recently
given to `addInstructionToTrace`, and these steps are made on it. -/
theorem callbackAfter_steps (w : World) (ctx : CONTEXT) (threadId : THREADID)
    (inst : InstPtr) (hu : w.analysisTrigger.state = .UNLOCKED)
    (hl : w.ap.lastInstruction = some inst) :
    (∀ i, w.insts[inst]? = some i →
      ∃ w1, (callbackAfter ctx threadId).run w = .ok ((), w1) ∧
        w1.calls = w.calls ++
          [.getState true,
           .updateCurrentCtxH ⟨ctx, threadId⟩,
           .getLastInstruction inst,
           .incNumberOfBranchesTaken i.isBranch,
           .callbackAfter inst] ∧
        w1.ap.currentCtxH = some ⟨ctx, threadId⟩ ∧
        w1.ap.numberOfBranchesTaken =
          (if i.isBranch then w.ap.numberOfBranchesTaken + 1
           else w.ap.numberOfBranchesTaken) ∧
        w1.ap.lastInstruction = some inst ∧
        w1.insts = w.insts ∧
        w1.irbs = w.irbs ∧
        w1.analysisTrigger = w.analysisTrigger) ∧
    (∀ (w0 : World) (evs : List Event), w0.calls = [] → w0.ap.lastInstruction = none →
      (runEvents evs).run w0 = .ok ((), w) →
      ∃ i w1, w.insts[inst]? = some i ∧ lastStored w.calls = some inst ∧
        (callbackAfter ctx threadId).run w = .ok ((), w1) ∧
        w1.calls = w.calls ++
          [.getState true,
           .updateCurrentCtxH ⟨ctx, threadId⟩,
           .getLastInstruction inst,
           .incNumberOfBranchesTaken i.isBranch,
           .callbackAfter inst] ∧
        w1.ap.currentCtxH = some ⟨ctx, threadId⟩ ∧
        w1.ap.numberOfBranchesTaken =
          (if i.isBranch then w.ap.numberOfBranchesTaken + 1
           else w.ap.numberOfBranchesTaken)) := by
  constructor
  · intro i hi
    exact ⟨afterResult w ctx threadId inst i,
      callbackAfter_unlocked w ctx threadId inst i (getState_of_unlocked _ hu) hl hi,
      rfl, rfl, rfl, hl, rfl, rfl, rfl⟩
  · intro w0 evs hcalls hnone hrun
    have h0 : w0.slotAgrees := by
      unfold World.slotAgrees
      rw [hcalls, hnone]
      rfl
    have hw := runEvents_slotAgrees evs w0 w hrun h0
    have hv := runEvents_slotValid evs w0 w hrun (slotValid_of_none w0 hnone)
    unfold World.slotAgrees at hw
    obtain ⟨i, hi⟩ := slotValid_some w inst hv hl
    exact ⟨i, afterResult w ctx threadId inst i, hi, by rw [← hw, hl],
      callbackAfter_unlocked w ctx threadId inst i (getState_of_unlocked _ hu) hl hi,
      rfl, rfl, rfl⟩

theorem callbackAfter_steps_witness :
    sampleStored.analysisTrigger.state = .UNLOCKED ∧
    sampleStored.ap.lastInstruction = some 0 ∧
    sampleStored.insts[0]? =
      some ((builderAfter (IRBuilder.ofINS sampleLoad) true 24576 1).process 1) ∧
    (runEvents [.toggleWrapper true, .callbackBefore 0 7 true 24576 1]).run sampleWorld =
      .ok ((), sampleStored) ∧
    (∃ w1, (callbackAfter 8 1).run sampleStored = .ok ((), w1) ∧
      w1.calls = sampleStored.calls ++
        [.getState true,
         .updateCurrentCtxH ⟨8, 1⟩,
         .getLastInstruction 0,
         .incNumberOfBranchesTaken
           ((builderAfter (IRBuilder.ofINS sampleLoad) true 24576 1).process 1).isBranch,
         .callbackAfter 0] ∧
      w1.ap.currentCtxH = some ⟨8, 1⟩ ∧
      w1.ap.numberOfBranchesTaken =
        (if ((builderAfter (IRBuilder.ofINS sampleLoad) true 24576 1).process 1).isBranch
          then sampleStored.ap.numberOfBranchesTaken + 1
         else sampleStored.ap.numberOfBranchesTaken) ∧
      w1.ap.lastInstruction = some 0 ∧
      w1.insts = sampleStored.insts ∧
      w1.irbs = sampleStored.irbs ∧
      w1.analysisTrigger = sampleStored.analysisTrigger) ∧
    (∃ i w1, sampleStored.insts[0]? = some i ∧ lastStored sampleStored.calls = some 0 ∧
      (callbackAfter 8 1).run sampleStored = .ok ((), w1) ∧
      w1.calls = sampleStored.calls ++
        [.getState true,
         .updateCurrentCtxH ⟨8, 1⟩,
         .getLastInstruction 0,
         .incNumberOfBranchesTaken i.isBranch,
         .callbackAfter 0] ∧
      w1.ap.currentCtxH = some ⟨8, 1⟩ ∧
      w1.ap.numberOfBranchesTaken =
        (if i.isBranch then sampleStored.ap.numberOfBranchesTaken + 1
         else sampleStored.ap.numberOfBranchesTaken)) :=
  ⟨by decide, by decide, by decide, sampleStored_stored,
    (callbackAfter_steps sampleStored 8 1 0 (by decide) (by decide)).1 _ (by decide),
    (callbackAfter_steps sampleStored 8 1 0 (by decide) (by decide)).2 sampleWorld _ rfl rfl
      sampleStored_stored⟩

/-! ## Routine and syscall handlers -/

theorem sampleSyscalled_entered :
    (callbackSyscallEntry 1 100 0).run sampleUnlocked = .ok ((), sampleSyscalled) :=
  callbackSyscallEntry_unlocked sampleUnlocked 1 100 0 (by decide)

/-- C6 as stated fails: with the Trigger `UNLOCKED` and the context of thread 1 held,
`callbackRoutineEntry` on thread 2 dispatches the script callback without replacing the
context, which stays that of thread 1. -/
theorem callbackRoutineEntry_keeps_context :
    sampleSyscalled.analysisTrigger.state = .UNLOCKED ∧
    ∃ w1, (callbackRoutineEntry 2 9).run sampleSyscalled = .ok ((), w1) ∧
      w1.calls = sampleSyscalled.calls ++ [.getState true, .callbackRoutine 2 9] ∧
      w1.ap.currentCtxH = some ⟨100, 1⟩ ∧
      ∀ ctx, w1.ap.currentCtxH ≠ some ⟨ctx, 2⟩ := by
  refine ⟨by decide, _, callbackRoutineEntry_unlocked sampleSyscalled 2 9 (by decide),
    rfl, rfl, ?_⟩
  intro ctx h
  have h2 : (some (PINContextHandler.mk 100 1)) = some ⟨ctx, 2⟩ := h
  simp at h2

/-- C6 amended: with the Trigger `UNLOCKED`, `callbackSyscallEntry` and
`callbackSyscallExit` check the Trigger, replace the context by a fresh one for the
intercepting thread and then dispatch the script callback; `callbackRoutineEntry` and
`callbackRoutineExit` check the Trigger and then dispatch, leaving the context as it
was; none of the four builds an `Inst` or touches anything else. -/
theorem gated_handlers_shape (w : World) (threadId : THREADID) (ctx : CONTEXT)
    (std : SYSCALL_STANDARD) (callback : PyObject)
    (hu : w.analysisTrigger.state = .UNLOCKED) :
    (callbackSyscallEntry threadId ctx std).run w =
      .ok ((), { w with
        ap := { w.ap with currentCtxH := some ⟨ctx, threadId⟩ }
        calls := w.calls ++ [.getState true, .updateCurrentCtxH ⟨ctx, threadId⟩,
          .callbackSyscallEntry threadId std] }) ∧
    (callbackSyscallExit threadId ctx std).run w =
      .ok ((), { w with
        ap := { w.ap with currentCtxH := some ⟨ctx, threadId⟩ }
        calls := w.calls ++ [.getState true, .updateCurrentCtxH ⟨ctx, threadId⟩,
          .callbackSyscallExit threadId std] }) ∧
    (callbackRoutineEntry threadId callback).run w =
      .ok ((), { w with
        calls := w.calls ++ [.getState true, .callbackRoutine threadId callback] }) ∧
    (callbackRoutineExit threadId callback).run w =
      .ok ((), { w with
        calls := w.calls ++ [.getState true, .callbackRoutine threadId callback] }) :=
  ⟨callbackSyscallEntry_unlocked w threadId ctx std (getState_of_unlocked _ hu),
   callbackSyscallExit_unlocked w threadId ctx std (getState_of_unlocked _ hu),
   callbackRoutineEntry_unlocked w threadId callback (getState_of_unlocked _ hu),
   callbackRoutineExit_unlocked w threadId callback (getState_of_unlocked _ hu)⟩

theorem gated_handlers_shape_witness :
    sampleUnlocked.analysisTrigger.state = .UNLOCKED ∧
    (callbackSyscallEntry 1 100 0).run sampleUnlocked =
      .ok ((), { sampleUnlocked with
        ap := { sampleUnlocked.ap with currentCtxH := some ⟨100, 1⟩ }
        calls := sampleUnlocked.calls ++ [.getState true, .updateCurrentCtxH ⟨100, 1⟩,
          .callbackSyscallEntry 1 0] }) ∧
    (callbackSyscallExit 1 100 0).run sampleUnlocked =
      .ok ((), { sampleUnlocked with
        ap := { sampleUnlocked.ap with currentCtxH := some ⟨100, 1⟩ }
        calls := sampleUnlocked.calls ++ [.getState true, .updateCurrentCtxH ⟨100, 1⟩,
          .callbackSyscallExit 1 0] }) ∧
    (callbackRoutineEntry 1 9).run sampleUnlocked =
      .ok ((), { sampleUnlocked with
        calls := sampleUnlocked.calls ++ [.getState true, .callbackRoutine 1 9] }) ∧
    (callbackRoutineExit 1 9).run sampleUnlocked =
      .ok ((), { sampleUnlocked with
        calls := sampleUnlocked.calls ++ [.getState true, .callbackRoutine 1 9] }) :=
  ⟨by decide, gated_handlers_shape sampleUnlocked 1 100 0 9 (by decide)⟩

/-! ## The last instruction at after time -/

/-- C10 as stated fails: from the start-up state, the before-interception of the first
instruction runs `LOCKED` and stores nothing; the Trigger is then toggled on; the
after-interception of that same instruction passes the gate and `getLastInstruction`
meets `NoInstructionYet`. -/
theorem toggle_between_before_and_after :
    sampleWorld.ap.lastInstruction = none ∧
    (runEvents [.callbackBefore 0 7 true 24576 1, .toggleWrapper true,
      .callbackAfter 8 1]).run sampleWorld = .error .NoInstructionYet := by
  have h1 : (Event.callbackBefore 0 7 true 24576 1).exec.run sampleWorld = .ok ((), _) :=
    callbackBefore_locked sampleWorld 0 7 true 24576 1 (by decide)
  have h2 : (Event.toggleWrapper true).exec.run
      (sampleWorld.recording [.applyConfBeforeProcessing 0, .getState false]) = .ok ((), _) :=
    toggleWrapper_run _ true
  refine ⟨rfl, ?_⟩
  rw [runEvents_cons_ok _ _ _ _ h1, runEvents_cons_ok _ _ _ _ h2]
  exact runEvents_cons_error _ _ _ _
    (callbackAfter_noInstruction _ 8 1 (by decide) (by decide))

theorem sampleInterleaved_reached :
    (runEvents [.callbackBefore 0 7 true 24576 1, .toggleWrapper false,
      .callbackBefore 1 9 false 0 1, .toggleWrapper true]).run sampleUnlocked =
      .ok ((), sampleInterleaved) := by
  have h1 : (Event.callbackBefore 0 7 true 24576 1).exec.run sampleUnlocked =
      .ok ((), sampleStored) :=
    callbackBefore_unlocked sampleUnlocked 0 (IRBuilder.ofINS sampleLoad) 7 true 24576 1
      (by decide) (by decide)
  have h2 : (Event.toggleWrapper false).exec.run sampleStored = .ok ((), _) :=
    toggleWrapper_run sampleStored false
  have h3 : (Event.callbackBefore 1 9 false 0 1).exec.run
      { sampleStored with
        analysisTrigger := sampleStored.analysisTrigger.update false
        calls := sampleStored.calls ++ [.update false] } = .ok ((), _) :=
    callbackBefore_locked _ 1 9 false 0 1 (by decide)
  have h4 : (Event.toggleWrapper true).exec.run
      (World.recording { sampleStored with
        analysisTrigger := sampleStored.analysisTrigger.update false
        calls := sampleStored.calls ++ [.update false] }
        [.applyConfBeforeProcessing 1, .getState false]) = .ok ((), _) :=
    toggleWrapper_run _ true
  rw [runEvents_cons_ok _ _ _ _ h1, runEvents_cons_ok _ _ _ _ h2,
    runEvents_cons_ok _ _ _ _ h3, runEvents_single _ _ _ h4]
  rfl

/-- C10 amended: in any sequence of interceptions from a start-up state (nothing called,
no last instruction), with the Trigger toggled anywhere, whenever `callbackAfter` passes
the gate after some before-interception has passed it (`p1` runs, the Trigger is then
unlocked at a before-interception, and `p2` follows), the last-instruction slot holds a
record that exists and is the one most recently given to `addInstructionToTrace`, and
`callbackAfter` returns having read it, without meeting `NoInstructionYet`.  The
condition is needed: when no before-interception of the sequence has met the Trigger
unlocked, a `callbackAfter` that passes the gate meets `NoInstructionYet`. -/
theorem after_finds_stored_instruction (w0 w1 w : World) (p1 p2 : List Event)
    (irb : IRBuilderPtr) (ctx0 : CONTEXT) (hasEA : Bool) (ea : ADDRINT) (t0 : THREADID)
    (ctx : CONTEXT) (threadId : THREADID)
    (hcalls : w0.calls = []) (hinit : w0.ap.lastInstruction = none)
    (h1 : (runEvents p1).run w0 = .ok ((), w1))
    (hu1 : w1.analysisTrigger.state = .UNLOCKED)
    (h2 : (runEvents (.callbackBefore irb ctx0 hasEA ea t0 :: p2)).run w1 = .ok ((), w))
    (hu : w.analysisTrigger.state = .UNLOCKED) :
    (∃ inst i w3, w.ap.lastInstruction = some inst ∧ w.insts[inst]? = some i ∧
      lastStored w.calls = some inst ∧
      (callbackAfter ctx threadId).run w = .ok ((), w3) ∧
      w3.calls = w.calls ++
        [.getState true,
         .updateCurrentCtxH ⟨ctx, threadId⟩,
         .getLastInstruction inst,
         .incNumberOfBranchesTaken i.isBranch,
         .callbackAfter inst]) ∧
    (∀ (evs : List Event) (w2 : World), (runEvents evs).run w0 = .ok ((), w2) →
      storesNothing w0.analysisTrigger evs = true →
      w2.analysisTrigger.state = .UNLOCKED →
      (callbackAfter ctx threadId).run w2 = .error .NoInstructionYet) := by
  constructor
  · have hall : (runEvents (p1 ++ .callbackBefore irb ctx0 hasEA ea t0 :: p2)).run w0 =
        .ok ((), w) := by
      rw [runEvents_append_ok p1 _ w0 w1 h1]
      exact h2
    have h0 : w0.slotAgrees := by
      unfold World.slotAgrees
      rw [hcalls, hinit]
      rfl
    have hagree := runEvents_slotAgrees _ w0 w hall h0
    have hvalid := runEvents_slotValid _ w0 w hall (slotValid_of_none w0 hinit)
    obtain ⟨w1b, hb, hrest⟩ := runEvents_cons_split _ p2 w1 w h2
    have hfilled1 : w1b.ap.lastInstruction ≠ none := by
      cases hq : w1.irbs[irb]? with
      | none =>
        have herr := callbackBefore_invalid w1 irb ctx0 hasEA ea t0
          (getState_of_unlocked _ hu1) hq
        have hb2 : (callbackBefore irb ctx0 hasEA ea t0).run w1 = .ok ((), w1b) := hb
        rw [herr] at hb2
        cases hb2
      | some b =>
        have hok := callbackBefore_unlocked w1 irb b ctx0 hasEA ea t0
          (getState_of_unlocked _ hu1) hq
        have hb2 : (callbackBefore irb ctx0 hasEA ea t0).run w1 = .ok ((), w1b) := hb
        rw [hok] at hb2
        cases hb2
        simp [beforeResult]
    have hfilled := runEvents_filled p2 w1b w hrest hfilled1
    cases hl : w.ap.lastInstruction with
    | none => exact absurd hl hfilled
    | some inst =>
      obtain ⟨i, hi⟩ := slotValid_some w inst hvalid hl
      refine ⟨inst, i, afterResult w ctx threadId inst i, rfl, hi, ?_,
        callbackAfter_unlocked w ctx threadId inst i (getState_of_unlocked _ hu) hl hi, rfl⟩
      unfold World.slotAgrees at hagree
      rw [← hagree, hl]
  · intro evs w2 hrun hnone hu2
    have hkeep := runEvents_storesNothing evs w0 w2 hrun hnone
    exact callbackAfter_noInstruction w2 ctx threadId (getState_of_unlocked _ hu2)
      (by rw [hkeep, hinit])

theorem after_finds_stored_instruction_witness :
    sampleWorld.calls = [] ∧
    sampleWorld.ap.lastInstruction = none ∧
    (runEvents [.toggleWrapper true]).run sampleWorld = .ok ((), sampleUnlocked) ∧
    sampleUnlocked.analysisTrigger.state = .UNLOCKED ∧
    (runEvents (.callbackBefore 0 7 true 24576 1 ::
      [.toggleWrapper false, .callbackBefore 1 9 false 0 1, .toggleWrapper true])).run
        sampleUnlocked = .ok ((), sampleInterleaved) ∧
    sampleInterleaved.analysisTrigger.state = .UNLOCKED ∧
    ∃ inst i w3, sampleInterleaved.ap.lastInstruction = some inst ∧
      sampleInterleaved.insts[inst]? = some i ∧
      lastStored sampleInterleaved.calls = some inst ∧
      (callbackAfter 10 1).run sampleInterleaved = .ok ((), w3) ∧
      w3.calls = sampleInterleaved.calls ++
        [.getState true,
         .updateCurrentCtxH ⟨10, 1⟩,
         .getLastInstruction inst,
         .incNumberOfBranchesTaken i.isBranch,
         .callbackAfter inst] :=
  ⟨rfl, rfl, runEvents_single _ _ _ sampleUnlocked_toggled, rfl, sampleInterleaved_reached,
    rfl,
    (after_finds_stored_instruction sampleWorld sampleUnlocked sampleInterleaved
      [.toggleWrapper true] [.toggleWrapper false, .callbackBefore 1 9 false 0 1,
        .toggleWrapper true] 0 7 true 24576 1 10 1 rfl rfl
      (runEvents_single _ _ _ sampleUnlocked_toggled) rfl sampleInterleaved_reached rfl).1⟩

/-! ## The effective address -/

theorem setup_operands (b : IRBuilder) (ea : ADDRINT) :
    (b.setup ea).operands = b.operands.map (Operand.resolve ea) := by
  unfold IRBuilder.setup
  simp only
  apply List.map_congr_left
  intro o _
  cases o <;> rfl

/-- C7: an unlocked `callbackBefore` with `hasEA = true` calls `setup(ea)` before
`process`; the builder then holds, and the record built from it carries, the operands of
the builder with every memory operand at exactly `ea`, whatever address the builder held
before; and `TRACE_Instrumentation` returns having allocated, for every instruction of
the trace, its builder and a `callbackBefore` request at `IPOINT_BEFORE` on that builder
whose `hasEA` is true exactly when `INS_MemoryOperandCount` is positive, with
`IARG_MEMORYOP_EA 0` then and the constant `IARG_ADDRINT 0` otherwise; every
`callbackBefore` request it adds is of that shape. -/
theorem setup_precedes_process (w : World) (irb : IRBuilderPtr) (b : IRBuilder)
    (ctx : CONTEXT) (ea : ADDRINT) (threadId : THREADID)
    (hu : w.analysisTrigger.state = .UNLOCKED) (hb : w.irbs[irb]? = some b) :
    (∃ w1 b1 i, (callbackBefore irb ctx true ea threadId).run w = .ok ((), w1) ∧
      w1.calls = w.calls ++
        [.applyConfBeforeProcessing irb, .getState true,
         .setup irb ea,
         .updateCurrentCtxH ⟨ctx, threadId⟩,
         .setThreadID irb threadId,
         .callbackBeforeIRProc irb,
         .process irb w.insts.length,
         .addInstructionToTrace w.insts.length,
         .setOpcode w.insts.length b.opcode,
         .setOpcodeCategory w.insts.length b.opcodeCategory,
         .setOperands w.insts.length (b.operands.map (Operand.resolve ea)),
         .callbackBefore w.insts.length] ∧
      w1.irbs[irb]? = some b1 ∧
      b1.operands = b.operands.map (Operand.resolve ea) ∧
      w1.insts[w.insts.length]? = some i ∧
      w1.ap.lastInstruction = some w.insts.length ∧
      i.operands = b.operands.map (Operand.resolve ea) ∧
      (∀ a, Operand.mem a ∈ i.operands → a = ea)) ∧
    (∀ (trace : TRACE) (w0 : World), ∃ w2,
      (TRACE_Instrumentation trace).run w0 = .ok ((), w2) ∧
      (∀ k ins, (TRACE.instructions trace)[k]? = some ins →
        w2.irbs[w0.irbs.length + k]? = some (IRBuilder.ofINS ins) ∧
        (⟨ins, .IPOINT_BEFORE,
          .callbackBefore (w0.irbs.length + k) (decide (0 < INS_MemoryOperandCount ins))
            (if 0 < INS_MemoryOperandCount ins then .IARG_MEMORYOP_EA 0
             else .IARG_ADDRINT 0)⟩ : InsRequest) ∈ w2.insRequests) ∧
      ∃ added, w2.insRequests = w0.insRequests ++ added ∧
        ∀ r ∈ added, ∀ irb2 hasEA eaArg, r.call = .callbackBefore irb2 hasEA eaArg →
          r.point = .IPOINT_BEFORE ∧
          (hasEA = true ↔ 0 < INS_MemoryOperandCount r.ins) ∧
          eaArg = (if hasEA then .IARG_MEMORYOP_EA 0 else .IARG_ADDRINT 0)) := by
  constructor
  · have hops : (builderAfter b true ea threadId).operands =
        b.operands.map (Operand.resolve ea) := setup_operands b ea
    refine ⟨beforeResult w irb b ctx true ea threadId, builderAfter b true ea threadId,
      (builderAfter b true ea threadId).process threadId,
      callbackBefore_unlocked w irb b ctx true ea threadId (getState_of_unlocked _ hu) hb,
      ?_, getElem?_set_of_some _ _ _ _ hb, hops, ?_, rfl, hops, ?_⟩
    · simp [beforeResult, beforeCalls, hops]
    · simp [beforeResult]
    · intro a ha
      have ha2 : Operand.mem a ∈ b.operands.map (Operand.resolve ea) := by
        rw [← hops]
        exact ha
      rw [List.mem_map] at ha2
      obtain ⟨o, _, ho⟩ := ha2
      cases o <;> simp [Operand.resolve] at ho
      exact ho.symm
  · intro trace w0
    refine ⟨_, TRACE_Instrumentation_run trace w0, ?_,
      requestsFrom w0.irbs.length (TRACE.instructions trace), rfl,
      requestsFrom_before_shape _ _⟩
    intro k ins hk
    constructor
    · have hklt : k < (TRACE.instructions trace).length := by
        by_contra hc
        simp [List.getElem?_eq_none (Nat.le_of_not_lt hc)] at hk
      show (w0.irbs ++ (TRACE.instructions trace).map IRBuilder.ofINS)[w0.irbs.length + k]? = _
      rw [List.getElem?_append_right (Nat.le_add_right _ _)]
      simp [hk]
    · exact List.mem_append_right _ (requestsFrom_before_mem _ _ k ins hk)

theorem setup_precedes_process_witness :
    sampleStored.analysisTrigger.state = .UNLOCKED ∧
    sampleStored.irbs[0]? = some (builderAfter (IRBuilder.ofINS sampleLoad) true 24576 1) ∧
    (builderAfter (IRBuilder.ofINS sampleLoad) true 24576 1).operands =
      [.imm 8, .mem 24576] ∧
    (∃ w1 b1 i, (callbackBefore 0 11 true 28672 1).run sampleStored = .ok ((), w1) ∧
      w1.irbs[0]? = some b1 ∧
      b1.operands = [.imm 8, .mem 28672] ∧
      w1.insts[sampleStored.insts.length]? = some i ∧
      i.operands = [.imm 8, .mem 28672]) ∧
    (∃ w2, (TRACE_Instrumentation sampleTrace).run World.initial = .ok ((), w2) ∧
      (⟨sampleLoad, .IPOINT_BEFORE, .callbackBefore 0 true (.IARG_MEMORYOP_EA 0)⟩ :
        InsRequest) ∈ w2.insRequests ∧
      (⟨sampleJcc, .IPOINT_BEFORE, .callbackBefore 1 false (.IARG_ADDRINT 0)⟩ :
        InsRequest) ∈ w2.insRequests) :=
  ⟨by decide, by decide, by decide,
    match (setup_precedes_process sampleStored 0
      (builderAfter (IRBuilder.ofINS sampleLoad) true 24576 1) 11 28672 1
      (by decide) (by decide)).1 with
    | ⟨w1, b1, i, hrun, _, hb1, hops, hi, _, hiops, _⟩ =>
      ⟨w1, b1, i, hrun, hb1, hops, hi, hiops⟩,
    match (setup_precedes_process sampleStored 0
      (builderAfter (IRBuilder.ofINS sampleLoad) true 24576 1) 11 28672 1
      (by decide) (by decide)).2 sampleTrace World.initial with
    | ⟨w2, hrun, hk, _⟩ =>
      ⟨w2, hrun, (hk 0 sampleLoad (by decide)).2, (hk 1 sampleJcc (by decide)).2⟩⟩

/-! ## Registration -/

/-- C8: `TRACE_Instrumentation` returns, and the requests it adds are, instruction by
instruction in loop order, those of `requestsOf` for the builder it allocates: exactly
one request at `IPOINT_BEFORE` (carrying whether a memory operand exists and, if so,
`IARG_MEMORYOP_EA 0`), and among the others none for a system-call instruction and
otherwise exactly one `callbackAfter` request, at `IPOINT_TAKEN_BRANCH` when the
instruction has no fall-through and at `IPOINT_AFTER` when it has. -/
theorem TRACE_Instrumentation_requests (trace : TRACE) (w : World) :
    (∃ w1, (TRACE_Instrumentation trace).run w = .ok ((), w1) ∧
      w1.insRequests =
        w.insRequests ++ requestsFrom w.irbs.length (TRACE.instructions trace) ∧
      w1.irbs = w.irbs ++ (TRACE.instructions trace).map IRBuilder.ofINS) ∧
    (∀ (ins : INS) (irb : IRBuilderPtr),
      (requestsOf ins irb).filter (fun r => r.point = .IPOINT_BEFORE) =
        [⟨ins, .IPOINT_BEFORE,
          .callbackBefore irb (decide (0 < INS_MemoryOperandCount ins))
            (if 0 < INS_MemoryOperandCount ins then .IARG_MEMORYOP_EA 0
             else .IARG_ADDRINT 0)⟩] ∧
      (requestsOf ins irb).filter (fun r => r.point ≠ .IPOINT_BEFORE) =
        (if INS_IsSyscall ins then []
         else [⟨ins,
           if INS_HasFallThrough ins then .IPOINT_AFTER else .IPOINT_TAKEN_BRANCH,
           .callbackAfter⟩])) := by
  constructor
  · exact ⟨_, TRACE_Instrumentation_run trace w, rfl, rfl⟩
  · intro ins irb
    cases hs : ins.isSyscall <;> cases hf : ins.hasFallThrough <;>
    simp [requestsOf, hs, hf, INS_MemoryOperandCount, INS_IsSyscall, INS_HasFallThrough,
      List.filter_cons]

/-! ## The symbol-scoped region -/

/-- C9: with a start symbol configured that resolves to the routine `main` of the loaded
image, the Trigger `LOCKED` and no routine request made yet, `IMG_Instrumentation`
returns and the host then calls `toggleWrapper(true)` first at the entry of `main` and
`toggleWrapper(false)` first at its exit, the other calls there toggling nothing.  For
one activation of `main` (interceptions `pre` before the entry, `mid` between entry and
exit, `post` after the exit, none of them toggling), the Trigger is `LOCKED` at every
interception of `pre`, `UNLOCKED` at every interception of `mid` and `LOCKED` at every
interception of `post` that the run reaches. -/
theorem start_symbol_region (options : PyTritonOptions) (img : IMG) (symbol : String)
    (main : RTN) (w : World) (threadId : THREADID) (pre mid post : List Event)
    (hsym : options.startAnalysisFromSymbol = some symbol)
    (hfind : RTN_FindByName img symbol = some main)
    (hlocked : w.analysisTrigger.state = .LOCKED)
    (hreq : w.rtnRequests = [])
    (hpre : ∀ e ∈ pre, e.isToggle = false)
    (hmid : ∀ e ∈ mid, e.isToggle = false)
    (hpost : ∀ e ∈ post, e.isToggle = false) :
    ∃ w1 entry exit, (IMG_Instrumentation options img).run w = .ok ((), w1) ∧
      rtnEvents w1.rtnRequests main .IPOINT_BEFORE threadId = .toggleWrapper true :: entry ∧
      rtnEvents w1.rtnRequests main .IPOINT_AFTER threadId = .toggleWrapper false :: exit ∧
      (∀ e ∈ entry, e.isToggle = false) ∧
      (∀ e ∈ exit, e.isToggle = false) ∧
      (∀ p e s wp, pre = p ++ e :: s → (runEvents p).run w1 = .ok ((), wp) →
        wp.analysisTrigger.state = .LOCKED) ∧
      (∀ p e s wp, mid = p ++ e :: s →
        (runEvents (pre ++ (.toggleWrapper true :: entry) ++ p)).run w1 = .ok ((), wp) →
        wp.analysisTrigger.state = .UNLOCKED) ∧
      (∀ p e s wp, post = p ++ e :: s →
        (runEvents (pre ++ (.toggleWrapper true :: entry) ++ mid ++
          (.toggleWrapper false :: exit) ++ p)).run w1 = .ok ((), wp) →
        wp.analysisTrigger.state = .LOCKED) := by
  obtain ⟨⟨entry, hentry, hentryT⟩, ⟨exit, hexit, hexitT⟩⟩ :=
    start_symbol_events options img symbol main threadId hsym hfind
  have hrun := IMG_Instrumentation_run options img w
  rw [hreq, List.nil_append] at hrun
  have hsub : ∀ (l p s : List Event) (e : Event), l = p ++ e :: s →
      (∀ x ∈ l, x.isToggle = false) → ∀ x ∈ p, x.isToggle = false := by
    intro l p s e hl h x hx
    exact h x (by rw [hl]; exact List.mem_append_left _ hx)
  refine ⟨_, entry, exit, hrun, hentry, hexit, hentryT, hexitT, ?_, ?_, ?_⟩
  · intro p e s wp hsplit h
    have ht := runEvents_trigger p _ wp h
    rw [triggerAfter_noToggle p _ (hsub pre p s e hsplit hpre)] at ht
    rw [ht]
    exact hlocked
  · intro p e s wp hsplit h
    have ht := runEvents_trigger _ _ wp h
    simp only [triggerAfter_append, triggerAfter_toggle,
      fun t => triggerAfter_noToggle pre t hpre,
      fun t => triggerAfter_noToggle entry t hentryT,
      fun t => triggerAfter_noToggle p t (hsub mid p s e hsplit hmid)] at ht
    rw [ht]
    rfl
  · intro p e s wp hsplit h
    have ht := runEvents_trigger _ _ wp h
    simp only [triggerAfter_append, triggerAfter_toggle,
      fun t => triggerAfter_noToggle pre t hpre,
      fun t => triggerAfter_noToggle entry t hentryT,
      fun t => triggerAfter_noToggle mid t hmid,
      fun t => triggerAfter_noToggle exit t hexitT,
      fun t => triggerAfter_noToggle p t (hsub post p s e hsplit hpost)] at ht
    rw [ht]
    rfl

theorem start_symbol_region_witness :
    sampleOptions.startAnalysisFromSymbol = some "main" ∧
    RTN_FindByName sampleImage "main" = some sampleMain ∧
    scenarioWorld.analysisTrigger.state = .LOCKED ∧
    scenarioWorld.rtnRequests = [] ∧
    (∀ e ∈ scenarioBefore, e.isToggle = false) ∧
    (∀ e ∈ Occurrence.trace scenarioBody, e.isToggle = false) ∧
    (∀ e ∈ [Event.callbackSyscallEntry 0 30 0], e.isToggle = false) ∧
    ∃ w1 entry exit,
      (IMG_Instrumentation sampleOptions sampleImage).run scenarioWorld = .ok ((), w1) ∧
      rtnEvents w1.rtnRequests sampleMain .IPOINT_BEFORE 0 = .toggleWrapper true :: entry ∧
      rtnEvents w1.rtnRequests sampleMain .IPOINT_AFTER 0 = .toggleWrapper false :: exit ∧
      (∀ e ∈ entry, e.isToggle = false) ∧
      (∀ e ∈ exit, e.isToggle = false) ∧
      (∀ p e s wp, scenarioBefore = p ++ e :: s → (runEvents p).run w1 = .ok ((), wp) →
        wp.analysisTrigger.state = .LOCKED) ∧
      (∀ p e s wp, Occurrence.trace scenarioBody = p ++ e :: s →
        (runEvents (scenarioBefore ++ (.toggleWrapper true :: entry) ++ p)).run w1 =
          .ok ((), wp) →
        wp.analysisTrigger.state = .UNLOCKED) ∧
      (∀ p e s wp, [Event.callbackSyscallEntry 0 30 0] = p ++ e :: s →
        (runEvents (scenarioBefore ++ (.toggleWrapper true :: entry) ++
          Occurrence.trace scenarioBody ++ (.toggleWrapper false :: exit) ++ p)).run w1 =
          .ok ((), wp) →
        wp.analysisTrigger.state = .LOCKED) :=
  ⟨rfl, by decide, rfl, rfl, by decide, by decide, by decide,
    start_symbol_region sampleOptions sampleImage "main" sampleMain scenarioWorld 0
      scenarioBefore (Occurrence.trace scenarioBody) [Event.callbackSyscallEntry 0 30 0]
      rfl (by decide) rfl rfl (by decide) (by decide) (by decide)⟩

/-! ## The branch counter -/

/-- C3 as stated fails on the counter: in the scenario (start symbol `main`, Trigger
`LOCKED` at start, two instructions run before `main`, five inside it of which the third
is the conditional branch, not taken, whose after-side request is at `IPOINT_AFTER`), the
run returns with the branch counter at 1, not 0. -/
theorem scenario_counts_untaken_branch :
    ⟨sampleJcc, .IPOINT_AFTER, .callbackAfter⟩ ∈ scenarioWorld.insRequests ∧
    ∃ w1 w2 w3,
      (IMG_Instrumentation sampleOptions sampleImage).run scenarioWorld = .ok ((), w1) ∧
      (runEvents scenarioBefore).run w1 = .ok ((), w2) ∧
      (runEvents (rtnEvents w1.rtnRequests sampleMain .IPOINT_BEFORE 0 ++
        Occurrence.trace scenarioBody ++
        rtnEvents w1.rtnRequests sampleMain .IPOINT_AFTER 0)).run w2 = .ok ((), w3) ∧
      w3.ap.numberOfBranchesTaken = 1 ∧
      w3.ap.numberOfBranchesTaken ≠ 0 := by
  obtain ⟨w1, w2, w3, h1, h2, _, h3, _, hc, _⟩ := region_run sampleImage "main" sampleMain
    scenarioWorld 0 scenarioBefore scenarioBody (by decide) rfl rfl
    (by decide) (by decide)
  have hone : w3.ap.numberOfBranchesTaken = 1 := by
    rw [hc]
    decide
  exact ⟨by decide, w1, w2, w3, h1, h2, h3, hone, by rw [hone]; decide⟩

/-- C3 amended: in the start-symbol scenario (start symbol `main` resolving in the
image, no routine hooks, Trigger `LOCKED` and counter zero at start, any interceptions
before `main` that toggle nothing, `main` entered once, five instructions run inside it
each delivering its before- and after-interception, exactly one of them classified as a
branch), every part of the run returns; no script callback fires before `main`; exactly
the five before/after callback pairs of the five records fire, in order; the Trigger
ends `LOCKED`; and the branch counter ends at 1, the branch instruction being counted
when its after-interception runs. -/
theorem start_symbol_scenario (img : IMG) (main : RTN) (w : World) (threadId : THREADID)
    (before : List Event) (body : List Occurrence)
    (hfind : RTN_FindByName img "main" = some main)
    (hlocked : w.analysisTrigger.state = .LOCKED)
    (hzero : w.ap.numberOfBranchesTaken = 0)
    (hreq : w.rtnRequests = [])
    (hbefore : ∀ e ∈ before, e.isToggle = false)
    (hlen : body.length = 5)
    (hvalid : ∀ o ∈ body, o.irb < w.irbs.length)
    (hbranch : (body.countP fun o => isBranchAt w o.irb) = 1) :
    ∃ w1 w2 w3,
      (IMG_Instrumentation ⟨some "main", [], []⟩ img).run w = .ok ((), w1) ∧
      (runEvents before).run w1 = .ok ((), w2) ∧
      w2.calls.filter Call.isScriptCallback = w.calls.filter Call.isScriptCallback ∧
      (runEvents (rtnEvents w1.rtnRequests main .IPOINT_BEFORE threadId ++
        Occurrence.trace body ++
        rtnEvents w1.rtnRequests main .IPOINT_AFTER threadId)).run w2 = .ok ((), w3) ∧
      w3.calls.filter Call.isInstructionCallback =
        w.calls.filter Call.isInstructionCallback ++
          [.callbackBefore w.insts.length, .callbackAfter w.insts.length,
           .callbackBefore (w.insts.length + 1), .callbackAfter (w.insts.length + 1),
           .callbackBefore (w.insts.length + 2), .callbackAfter (w.insts.length + 2),
           .callbackBefore (w.insts.length + 3), .callbackAfter (w.insts.length + 3),
           .callbackBefore (w.insts.length + 4), .callbackAfter (w.insts.length + 4)] ∧
      w3.ap.numberOfBranchesTaken = 1 ∧
      w3.analysisTrigger.state = .LOCKED := by
  obtain ⟨w1, w2, w3, h1, h2, hs, h3, hcalls, hc, ht⟩ := region_run img "main" main w
    threadId before body hfind hlocked hreq
    hbefore hvalid
  refine ⟨w1, w2, w3, h1, h2, hs, h3, ?_, ?_, ht⟩
  · rw [hcalls, hlen]
    rfl
  · rw [hc, hzero, hbranch]

theorem start_symbol_scenario_witness :
    RTN_FindByName sampleImage "main" = some sampleMain ∧
    scenarioWorld.analysisTrigger.state = .LOCKED ∧
    scenarioWorld.ap.numberOfBranchesTaken = 0 ∧
    scenarioWorld.rtnRequests = [] ∧
    (∀ e ∈ scenarioBefore, e.isToggle = false) ∧
    scenarioBody.length = 5 ∧
    (∀ o ∈ scenarioBody, o.irb < scenarioWorld.irbs.length) ∧
    (scenarioBody.countP fun o => isBranchAt scenarioWorld o.irb) = 1 ∧
    ∃ w1 w2 w3,
      (IMG_Instrumentation ⟨some "main", [], []⟩ sampleImage).run scenarioWorld =
        .ok ((), w1) ∧
      (runEvents scenarioBefore).run w1 = .ok ((), w2) ∧
      w2.calls.filter Call.isScriptCallback =
        scenarioWorld.calls.filter Call.isScriptCallback ∧
      (runEvents (rtnEvents w1.rtnRequests sampleMain .IPOINT_BEFORE 0 ++
        Occurrence.trace scenarioBody ++
        rtnEvents w1.rtnRequests sampleMain .IPOINT_AFTER 0)).run w2 = .ok ((), w3) ∧
      w3.calls.filter Call.isInstructionCallback =
        scenarioWorld.calls.filter Call.isInstructionCallback ++
          [.callbackBefore scenarioWorld.insts.length,
           .callbackAfter scenarioWorld.insts.length,
           .callbackBefore (scenarioWorld.insts.length + 1),
           .callbackAfter (scenarioWorld.insts.length + 1),
           .callbackBefore (scenarioWorld.insts.length + 2),
           .callbackAfter (scenarioWorld.insts.length + 2),
           .callbackBefore (scenarioWorld.insts.length + 3),
           .callbackAfter (scenarioWorld.insts.length + 3),
           .callbackBefore (scenarioWorld.insts.length + 4),
           .callbackAfter (scenarioWorld.insts.length + 4)] ∧
      w3.ap.numberOfBranchesTaken = 1 ∧
      w3.analysisTrigger.state = .LOCKED :=
  ⟨by decide, rfl, rfl, rfl, by decide, rfl, by decide, by decide,
    start_symbol_scenario sampleImage sampleMain scenarioWorld 0 scenarioBefore scenarioBody
      (by decide) rfl rfl rfl (by decide) rfl (by decide) (by decide)⟩

end Triton
